import Mathlib

/-!
Memory card game (`src/script.js`).

A shallow embedding of the game controller of `script.js`.

* The script's `let` variables (`deck`, `flipped`, `matchedCount`, `moves`, `score`,
  `timerSeconds`, `timerInterval`, `timerRunning`) are the first eight fields of `Game`.
* The part of the browser the script talks to is made explicit in the remaining fields:
  the live `setInterval` handles, the pending `setTimeout` callbacks, the card elements
  of the board with their `flipped` / `matched` classes, and the text nodes.
* `Math.random` is an oracle: `Draws` gives, for the loop index `i` of `shuffle`, the value
  `Math.floor(Math.random() * (i + 1))`, which lies in `0 .. i`.
* `score` and `timerSeconds` are JavaScript numbers that the script decrements, so they
  are integers (`Int`); `moves` and `matchedCount` are only ever incremented (`Nat`).
* The image list and the pair count derived from it are a parameter `images` of every
  function that reads them; `IMAGE_FILES` is the list written in the script.
-/

namespace MemoryGame

/-! ## Configuration -/

/-- The list `IMAGE_FILES` of the script. -/
def IMAGE_FILES : List String :=
  ["images/meme1.png", "images/meme2.png", "images/meme3.png", "images/meme4.png",
   "images/meme5.png", "images/meme6.png", "images/meme7.png", "images/meme8.png",
   "images/meme9.png", "images/meme10.webp", "images/meme11.webp", "images/meme12.png"]

/-- The constant `UNIQUE_PAIRS = Math.min(8, IMAGE_FILES.length)`. -/
def UNIQUE_PAIRS (images : List String) : Nat := min 8 images.length

/-! ## Data model -/

/-- A card object `{ id, src, matched }` of the deck. -/
structure Card where
  id : String
  src : String
  matched : Bool
deriving DecidableEq, Repr

/-- A card element of the board: the image it shows and whether its class list holds
`flipped` and `matched`. Its `data-index` is its position in the board. -/
structure CardEl where
  img : String
  flipped : Bool
  matched : Bool
deriving DecidableEq, Repr

/-- A callback handed to `setTimeout` and not run yet. -/
inductive Deferred where
  /-- The 200 ms callback of a match: add the class `matched` to elements `a` and `b`. -/
  | markMatched (a b : Nat)
  /-- The 800 ms callback of a mismatch: unflip `a` and `b`, then `flipped = []`. -/
  | unflipPair (a b : Nat)
  /-- The 5000 ms callback of `showMessage`: hide the message. -/
  | hideMessage
deriving DecidableEq, Repr

/-- The state of the page: the script's variables, then the browser state they act on. -/
structure Game where
  deck : List Card
  flipped : List Nat
  matchedCount : Nat
  moves : Nat
  score : Int
  timerSeconds : Int
  timerInterval : Option Nat
  timerRunning : Bool
  /-- Handles of the intervals that are scheduled and not cleared. -/
  liveIntervals : List Nat
  /-- The handle the next `setInterval` returns. -/
  nextHandle : Nat
  /-- The `setTimeout` callbacks that have not run yet, oldest first. -/
  pending : List Deferred
  /-- The children of `#game-board`. -/
  board : List CardEl
  scoreText : String
  movesText : String
  timerText : String
  messageText : String
  messageHidden : Bool
deriving DecidableEq, Repr

/-- The oracle for `Math.floor(Math.random() * (i + 1))`: a value in `0 .. i` for every `i`. -/
abbrev Draws := (i : Nat) → Fin (i + 1)

/-! ## Deck builder -/

/-- The function `pickImages`: `IMAGE_FILES.slice(0, UNIQUE_PAIRS)`. -/
def pickImages (images : List String) : List String :=
  images.take (UNIQUE_PAIRS images)

/-- The destructuring swap `[array[i], array[j]] = [array[j], array[i]]`: both reads happen
first, then `array[i]` and `array[j]` are written in this order. The loop of `shuffle`
only calls it with both indices inside the array. -/
def swapAt {α : Type} (array : List α) (i j : Nat) : List α :=
  match array[i]?, array[j]? with
  | some x, some y => (array.set i y).set j x
  | _, _ => array

/-- The loop of `shuffle`, entered with loop variable `i`: it runs while `i > 0`. -/
def shuffleLoop {α : Type} (draws : Draws) : Nat → List α → List α
  | 0, array => array
  | i + 1, array => shuffleLoop draws i (swapAt array (i + 1) (draws (i + 1)).val)

/-- The function `shuffle`: `for (let i = array.length - 1; i > 0; i--)`. -/
def shuffle {α : Type} (draws : Draws) (array : List α) : List α :=
  shuffleLoop draws (array.length - 1) array

/-- The array `pairs.map((src, i) => ({ id: i + "-" + src, src, matched: false }))`,
for the elements of `pairs` from index `i` on. -/
def cardsFrom : Nat → List String → List Card
  | _, [] => []
  | i, src :: rest =>
    { id := toString i ++ "-" ++ src, src := src, matched := false } :: cardsFrom (i + 1) rest

/-- The function `createDeck`; the result is the new value of `deck`. -/
def createDeck (images : List String) (draws : Draws) : List Card :=
  let imgs := pickImages images
  let pairs := imgs.flatMap (fun src => [src, src])
  let deck := cardsFrom 0 pairs
  shuffle draws deck

/-! ## Rendering and timers -/

/-- The function `renderBoard`: one fresh element, with the class `card` only, per card. -/
def renderBoard (g : Game) : Game :=
  { g with board := g.deck.map (fun card => { img := card.src, flipped := false, matched := false }) }

/-- The call `clearInterval(handle)`; `null` and stale handles clear nothing. -/
def clearInterval (handle : Option Nat) (g : Game) : Game :=
  match handle with
  | none => g
  | some h => { g with liveIntervals := g.liveIntervals.filter (fun k => k != h) }

/-- The method `padStart(n, c)` for a one-character pad string. -/
def padStart (n : Nat) (c : Char) (s : String) : String :=
  String.mk (List.replicate (n - s.length) c) ++ s

/-- The function `updateTimerDisplay`; `Math.floor(x / 60)` is floor division and `%` is
the remainder with the sign of the dividend. -/
def updateTimerDisplay (g : Game) : Game :=
  let minutes := padStart 2 '0' (toString (Int.fdiv g.timerSeconds 60))
  let seconds := padStart 2 '0' (toString (Int.tmod g.timerSeconds 60))
  { g with timerText := minutes ++ ":" ++ seconds }

/-- The function `showMessage`. -/
def showMessage (text : String) (g : Game) : Game :=
  { g with messageText := text, messageHidden := false,
           pending := g.pending ++ [Deferred.hideMessage] }

/-- The function `endGame`. -/
def endGame (won : Bool) (g : Game) : Game :=
  let g := { g with timerRunning := false }
  let g := clearInterval g.timerInterval g
  showMessage
    (if won then "You won! Score: " ++ toString g.score ++ ", Moves: " ++ toString g.moves
     else "Time's up! Score: " ++ toString g.score ++ ", Moves: " ++ toString g.moves) g

/-- The function `startTimer`: the interval it schedules gets the next free handle. -/
def startTimer (g : Game) : Game :=
  if g.timerRunning then g
  else
    let g := { g with timerRunning := true }
    let g := updateTimerDisplay g
    { g with timerInterval := some g.nextHandle,
             liveIntervals := g.nextHandle :: g.liveIntervals,
             nextHandle := g.nextHandle + 1 }

/-- The callback given to `setInterval` in `startTimer`, run once per second. -/
def timerTick (g : Game) : Game :=
  let g := { g with timerSeconds := g.timerSeconds - 1 }
  let g := updateTimerDisplay g
  if g.timerSeconds ≤ 0 then
    let g := clearInterval g.timerInterval g
    endGame false g
  else g

/-! ## Input handling -/

/-- The function `flipCard`: add the class `flipped` if the element exists. -/
def flipCard (index : Nat) (g : Game) : Game :=
  match g.board[index]? with
  | none => g
  | some cardEl => { g with board := g.board.set index { cardEl with flipped := true } }

/-- The function `unflipCard`: remove the class `flipped` if the element exists. -/
def unflipCard (index : Nat) (g : Game) : Game :=
  match g.board[index]? with
  | none => g
  | some cardEl => { g with board := g.board.set index { cardEl with flipped := false } }

/-- Add the class `matched` to the element with this index, if it exists. -/
def addMatchedClass (index : Nat) (g : Game) : Game :=
  match g.board[index]? with
  | none => g
  | some cardEl => { g with board := g.board.set index { cardEl with matched := true } }

/-- The assignment `deck[i].matched = true`. -/
def setMatched (deck : List Card) (i : Nat) : List Card :=
  match deck[i]? with
  | none => deck
  | some card => deck.set i { card with matched := true }

/-- The function `checkMatch`. It is called with two indices in `flipped`, both inside
the deck; on any other state the script would stop with a `TypeError`, and the model
leaves the state as it is. -/
def checkMatch (images : List String) (g : Game) : Game :=
  match g.flipped with
  | a :: b :: _ =>
    match g.deck[a]?, g.deck[b]? with
    | some cardA, some cardB =>
      if cardA.src = cardB.src then
        let g := { g with deck := setMatched (setMatched g.deck a) b }
        let g := { g with matchedCount := g.matchedCount + 1 }
        let g := { g with score := g.score + 10 }
        let g := { g with scoreText := toString g.score }
        let g := { g with flipped := [] }
        let g := { g with pending := g.pending ++ [Deferred.markMatched a b] }
        if g.matchedCount = UNIQUE_PAIRS images then
          let g := clearInterval g.timerInterval g
          endGame true g
        else g
      else
        let g := { g with score := max 0 (g.score - 1) }
        let g := { g with scoreText := toString g.score }
        { g with pending := g.pending ++ [Deferred.unflipPair a b] }
    | _, _ => g
  | _ => g

/-- The function `onCardClick` for the element with `data-index = idx`. -/
def onCardClick (images : List String) (idx : Nat) (g : Game) : Game :=
  match g.deck[idx]? with
  | none => g
  | some card =>
    if card.matched then g
    else if g.flipped.contains idx then g
    else if g.flipped.length = 2 then g
    else
      let g := if !g.timerRunning then startTimer g else g
      let g := flipCard idx g
      let g := { g with flipped := g.flipped ++ [idx] }
      if g.flipped.length = 2 then
        let g := { g with moves := g.moves + 1 }
        let g := { g with movesText := toString g.moves }
        checkMatch images g
      else g

/-- The state in which `onCardClick` calls `checkMatch`, when the click on `b` is accepted
as the second card after `a`. -/
def secondSelected (a b : Nat) (g : Game) : Game :=
  let g1 := flipCard b (if !g.timerRunning then startTimer g else g)
  { g1 with flipped := [a, b], moves := g1.moves + 1, movesText := toString (g1.moves + 1) }

/-- The state in which `onCardClick` returns when the click on `idx` is accepted as the
first card of a pair. -/
def firstSelected (idx : Nat) (g : Game) : Game :=
  let g1 := flipCard idx (if !g.timerRunning then startTimer g else g)
  { g1 with flipped := [idx] }

/-- Run a `setTimeout` callback. -/
def runDeferred (d : Deferred) (g : Game) : Game :=
  match d with
  | Deferred.markMatched a b => addMatchedClass b (addMatchedClass a g)
  | Deferred.unflipPair a b =>
    let g := unflipCard a g
    let g := unflipCard b g
    { g with flipped := [] }
  | Deferred.hideMessage => { g with messageHidden := true }

/-! ## Session lifecycle -/

/-- The function `resetGame`; `draws` feeds the shuffle of the new deck. -/
def resetGame (images : List String) (draws : Draws) (g : Game) : Game :=
  let g := clearInterval g.timerInterval g
  let g := { g with timerInterval := none }
  let g := { g with timerRunning := false }
  let g := { g with timerSeconds := 120 }
  let g := updateTimerDisplay g
  let g := { g with matchedCount := 0 }
  let g := { g with moves := 0 }
  let g := { g with score := 0 }
  let g := { g with movesText := toString g.moves }
  let g := { g with scoreText := toString g.score }
  let g := { g with deck := createDeck images draws }
  let g := renderBoard g
  let g := { g with flipped := [] }
  { g with messageHidden := true }

/-- The state when the `DOMContentLoaded` handler starts: the variables as initialised by
their `let`, no timers, an empty board. The page markup is not part of the script, so the
message element's initial text and visibility are parameters. -/
def boot (messageText : String) (messageHidden : Bool) : Game :=
  { deck := [], flipped := [], matchedCount := 0, moves := 0, score := 0,
    timerSeconds := 120, timerInterval := none, timerRunning := false,
    liveIntervals := [], nextHandle := 0, pending := [], board := [],
    scoreText := "", movesText := "", timerText := "",
    messageText := messageText, messageHidden := messageHidden }

/-- What the event loop can deliver to the script. -/
inductive Event where
  /-- A click on the card element with `data-index = idx`. -/
  | click (idx : Nat)
  /-- The interval with handle `h` fires. -/
  | tick (h : Nat)
  /-- The pending `setTimeout` callback at position `k` runs. -/
  | fire (k : Nat)
  /-- A click on the restart button. -/
  | reset (draws : Draws)

/-- One turn of the event loop. A click needs its element to be on the board, a tick
needs its interval to be live and a callback needs to be pending; an event that cannot
occur leaves the state as it is. Delays are not tracked: a live interval may tick and a
pending callback may run at any turn, in any order. -/
def step (images : List String) (e : Event) (g : Game) : Game :=
  match e with
  | Event.click idx => if idx < g.board.length then onCardClick images idx g else g
  | Event.tick h => if g.liveIntervals.contains h then timerTick g else g
  | Event.fire k =>
    match g.pending[k]? with
    | none => g
    | some d => runDeferred d { g with pending := g.pending.eraseIdx k }
  | Event.reset draws => resetGame images draws g

/-- Run a list of events, first event first. -/
def run (images : List String) : List Event → Game → Game
  | [], g => g
  | e :: es, g => run images es (step images e g)

/-- The states the page can be in: the state after the initial `resetGame()`, and every
state one event later than such a state. -/
inductive Reachable (images : List String) : Game → Prop where
  | init (messageText : String) (messageHidden : Bool) (draws : Draws) :
      Reachable images (resetGame images draws (boot messageText messageHidden))
  | step (e : Event) {g : Game} : Reachable images g → Reachable images (step images e g)

/-- Whether event `e`, delivered in state `g`, is neither a restart nor the run of a
pending mismatch callback. -/
def keepsSelection (g : Game) : Event → Bool
  | Event.click _ => true
  | Event.tick _ => true
  | Event.fire k =>
    match g.pending[k]? with
    | some (Deferred.unflipPair _ _) => false
    | _ => true
  | Event.reset _ => false

/-- Every event of the run satisfies `keepsSelection` in the state it is delivered in. -/
def quietRun (images : List String) : List Event → Game → Prop
  | [], _ => True
  | e :: es, g => keepsSelection g e = true ∧ quietRun images es (step images e g)

/-- The countdown bookkeeping is consistent: while `timerRunning` holds, the interval in
`timerInterval` is the only live one, and otherwise none is live. -/
def TimerOK (g : Game) : Prop :=
  (g.timerRunning = true → ∃ h, g.timerInterval = some h ∧ g.liveIntervals = [h]) ∧
  (g.timerRunning = false → g.liveIntervals = [])

/-- The invariant of the page state. -/
structure Inv (images : List String) (g : Game) : Prop where
  deck_length : g.deck.length = 2 * UNIQUE_PAIRS images
  board_length : g.board.length = g.deck.length
  flipped_length : g.flipped.length ≤ 2
  flipped_nodup : g.flipped.Nodup
  flipped_unmatched : ∀ i ∈ g.flipped, ∃ c, g.deck[i]? = some c ∧ c.matched = false
  matched_pairs : g.deck.countP (fun c => c.matched) = 2 * g.matchedCount
  timer : TimerOK g

/-- Whether the event is a click on the restart button. -/
def Event.isReset : Event → Bool
  | Event.reset _ => true
  | _ => false

/-- The number of events of the run that are a tick of an interval live at that point,
that is, the number of times the countdown callback runs. -/
def ticksRun (images : List String) : List Event → Game → Nat
  | [], _ => 0
  | e :: es, g =>
    (match e with
      | Event.tick h => if g.liveIntervals.contains h then 1 else 0
      | _ => 0) + ticksRun images es (step images e g)

/-- The keys of the deck are the doubled picked images, and of the cards with any one key
none or two are matched. -/
def PairsOK (images : List String) (g : Game) : Prop :=
  (g.deck.map Card.src).Perm ((pickImages images).flatMap (fun src => [src, src])) ∧
  ∀ k, g.deck.countP (fun c => decide (c.src = k) && c.matched) = 0 ∨
       g.deck.countP (fun c => decide (c.src = k) && c.matched) = 2

/-- Whether the callback is the 800 ms callback of a mismatch. -/
def Deferred.isUnflip : Deferred → Bool
  | Deferred.unflipPair _ _ => true
  | _ => false

/-- The mismatch callbacks among the pending callbacks. -/
def unflips (pending : List Deferred) : List Deferred :=
  pending.filter Deferred.isUnflip

/-- The states reached from the initial reset when the restart button is only clicked
while no mismatch callback is pending. -/
inductive ReachableSettled (images : List String) : Game → Prop where
  | init (messageText : String) (messageHidden : Bool) (draws : Draws) :
      ReachableSettled images (resetGame images draws (boot messageText messageHidden))
  | step (e : Event) {g : Game} : ReachableSettled images g →
      (e.isReset = true → unflips g.pending = []) → ReachableSettled images (step images e g)

/-- The lock of the selection: no mismatch callback is pending, or exactly one is and
the selection holds its two cards. -/
def LockOK (g : Game) : Prop :=
  unflips g.pending = [] ∨
  ∃ a b, unflips g.pending = [Deferred.unflipPair a b] ∧ g.flipped = [a, b]

/-- The draws one run of `shuffle` on an array of length `n` makes: for each of the
`n - 1` iterations, with loop index `i = k + 1`, a value in `0 .. k + 1`. -/
abbrev DrawSeq (n : Nat) := (k : Fin (n - 1)) → Fin (k.val + 2)

/-- The oracle that answers the run on an array of length `n` with the draws of `s`
(and with 0 outside the iterations of that run). -/
def DrawSeq.toDraws {n : Nat} (s : DrawSeq n) : Draws := fun i =>
  if h : 1 ≤ i ∧ i < n then
    ⟨(s ⟨i - 1, by omega⟩).val, by
      have := (s ⟨i - 1, by omega⟩).isLt
      simp only at this
      omega⟩
  else ⟨0, Nat.succ_pos i⟩

/-- The draws of an oracle in the run on an array of length `n`. -/
def drawSeqOf (n : Nat) (d : Draws) : DrawSeq n := fun k => ⟨(d (k.val + 1)).val, (d (k.val + 1)).isLt⟩

/-- The draws that leave every array in place: `j = i` in every iteration. -/
def keepDraws : Draws := fun i => ⟨i, Nat.lt_succ_self i⟩

/-- The draws with `j = 1` in the iteration `i = 2` and `j = i` otherwise. -/
def interleaveDraws : Draws := fun i =>
  if h : i = 2 then ⟨1, by omega⟩ else ⟨i, Nat.lt_succ_self i⟩

/-- The page of the script after its initial `resetGame()`, for a shuffle that left the
deck in place: cards `2 * k` and `2 * k + 1` show image `k`. -/
def scriptStart : Game := resetGame IMAGE_FILES keepDraws (boot "" true)

/-- One card is flipped, then the countdown runs out: 120 ticks of the interval `0`. -/
def lossTrace : List Event := Event.click 0 :: List.replicate 120 (Event.tick 0)

/-- A two-image pool, as in the example of the specification. -/
def twoImages : List String := ["A", "B"]

/-- The fresh session on `twoImages` whose deck is `[A, B, A, B]`. -/
def freshABAB : Game := resetGame twoImages interleaveDraws (boot "" true)


/-! ## The shuffle is a permutation -/

/-- Overwriting position `j`, which held `y`, by `x` and putting `y` in front
rearranges `x :: l`. -/
theorem cons_set_perm {α : Type} (x y : α) :
    ∀ (l : List α) (j : Nat), l[j]? = some y → (y :: l.set j x).Perm (x :: l)
  | [], j, h => by simp at h
  | z :: t, 0, h => by
    simp at h
    subst h
    simpa using List.Perm.swap x z t
  | z :: t, j + 1, h => by
    simp at h
    have ih := cons_set_perm x y t j h
    have h1 : (y :: (z :: t).set (j + 1) x).Perm (z :: y :: t.set j x) := by
      simpa using List.Perm.swap z y (t.set j x)
    exact (h1.trans (ih.cons z)).trans (List.Perm.swap x z t)

/-- Exchanging the entries at two positions `i < j` rearranges the list. -/
theorem set_set_perm_of_lt {α : Type} (x y : α) :
    ∀ (l : List α) (i j : Nat), i < j → l[i]? = some x → l[j]? = some y →
      ((l.set i y).set j x).Perm l
  | [], i, j, _, h, _ => by simp at h
  | z :: t, 0, 0, hlt, _, _ => by omega
  | z :: t, 0, j + 1, _, hx, hy => by
    simp at hx hy
    subst hx
    simpa using cons_set_perm z y t j hy
  | z :: t, i + 1, 0, hlt, _, _ => by omega
  | z :: t, i + 1, j + 1, hlt, hx, hy => by
    simp at hx hy
    simpa using (set_set_perm_of_lt x y t i j (by omega) hx hy).cons z

/-- Writing back the value a position already holds changes nothing. -/
theorem set_same {α : Type} (x : α) :
    ∀ (l : List α) (i : Nat), l[i]? = some x → l.set i x = l
  | [], _, h => by simp at h
  | z :: t, 0, h => by
    simp at h
    simp [h]
  | z :: t, i + 1, h => by
    simp at h
    simp [set_same x t i h]

theorem swapAt_perm {α : Type} (array : List α) (i j : Nat) :
    (swapAt array i j).Perm array := by
  unfold swapAt
  cases hx : array[i]? with
  | none => simp
  | some x =>
    cases hy : array[j]? with
    | none => simp
    | some y =>
      simp only
      rcases Nat.lt_trichotomy i j with hlt | heq | hgt
      · exact set_set_perm_of_lt x y array i j hlt hx hy
      · subst heq
        have hxy : x = y := by simpa [hx] using hy
        subst hxy
        rw [set_same x array i hx, set_same x array i hx]
      · rw [List.set_comm y x array (by omega)]
        exact set_set_perm_of_lt y x array j i hgt hy hx

theorem shuffleLoop_perm {α : Type} (draws : Draws) :
    ∀ (i : Nat) (array : List α), (shuffleLoop draws i array).Perm array
  | 0, array => by simp [shuffleLoop]
  | i + 1, array => by
    simp only [shuffleLoop]
    exact (shuffleLoop_perm draws i _).trans (swapAt_perm array _ _)

theorem shuffle_perm {α : Type} (draws : Draws) (array : List α) :
    (shuffle draws array).Perm array :=
  shuffleLoop_perm draws _ array

/-- C2: for every array and every sequence of draws `j_i` in `0 .. i`, `shuffle` returns a
rearrangement of its input: the length is unchanged, the multiset of elements is the
same, and for a deck of cards so is the multiset of image keys. -/
theorem shuffle_is_permutation (draws : Draws) :
    (∀ (α : Type) (array : List α),
      (shuffle draws array).length = array.length ∧
      (shuffle draws array).Perm array ∧
      ((shuffle draws array : List α) : Multiset α) = (array : Multiset α)) ∧
    (∀ deck : List Card,
      (((shuffle draws deck).map Card.src : List String) : Multiset String)
        = ((deck.map Card.src : List String) : Multiset String)) := by
  refine ⟨fun α array => ⟨(shuffle_perm draws array).length_eq, shuffle_perm draws array,
    Quot.sound (shuffle_perm draws array)⟩, fun deck => ?_⟩
  exact Quot.sound ((shuffle_perm draws deck).map Card.src)

/-! ## The deck builder -/

theorem cardsFrom_map_src : ∀ (i : Nat) (pairs : List String),
    (cardsFrom i pairs).map Card.src = pairs
  | _, [] => rfl
  | i, src :: rest => by simp [cardsFrom, cardsFrom_map_src (i + 1) rest]

theorem cardsFrom_unmatched : ∀ (i : Nat) (pairs : List String),
    ∀ c ∈ cardsFrom i pairs, c.matched = false
  | _, [], c, h => by simp [cardsFrom] at h
  | i, src :: rest, c, h => by
    simp only [cardsFrom, List.mem_cons] at h
    rcases h with h | h
    · subst h; rfl
    · exact cardsFrom_unmatched (i + 1) rest c h

theorem count_doubled (k : String) : ∀ imgs : List String,
    List.count k (imgs.flatMap (fun src => [src, src])) = 2 * List.count k imgs
  | [] => by simp
  | s :: rest => by
    simp only [List.flatMap_cons, List.count_append, count_doubled k rest, List.count_cons,
      List.count_nil]
    split <;> omega

theorem length_doubled : ∀ imgs : List String,
    (imgs.flatMap (fun src => [src, src])).length = 2 * imgs.length
  | [] => by simp
  | s :: rest => by
    simp only [List.flatMap_cons, List.length_append, length_doubled rest, List.length_cons,
      List.length_nil]
    omega

theorem createDeck_perm (images : List String) (draws : Draws) :
    (createDeck images draws).Perm
      (cardsFrom 0 ((pickImages images).flatMap (fun src => [src, src]))) :=
  shuffle_perm draws _

theorem createDeck_srcs (images : List String) (draws : Draws) :
    ((createDeck images draws).map Card.src).Perm
      ((pickImages images).flatMap (fun src => [src, src])) := by
  have h := (createDeck_perm images draws).map Card.src
  rwa [cardsFrom_map_src] at h

theorem createDeck_length (images : List String) (draws : Draws) :
    (createDeck images draws).length = 2 * UNIQUE_PAIRS images := by
  have h := (createDeck_srcs images draws).length_eq
  rw [List.length_map, length_doubled] at h
  rw [h]
  simp [pickImages, UNIQUE_PAIRS]

theorem createDeck_unmatched (images : List String) (draws : Draws) :
    ∀ c ∈ createDeck images draws, c.matched = false := fun c hc =>
  cardsFrom_unmatched 0 _ c ((createDeck_perm images draws).mem_iff.mp hc)

/-- C1: for a pool of pairwise distinct image keys and `N = min(8, pool length)`, whatever
the draws of the shuffle, the deck built by `createDeck` has `2 * N` cards, each of the
first `N` keys of the pool is on exactly two cards, no other key is on a card, and every
card is unmatched. -/
theorem createDeck_two_per_key (images : List String) (hdistinct : images.Nodup)
    (draws : Draws) :
    UNIQUE_PAIRS images ≤ images.length ∧
    (createDeck images draws).length = 2 * UNIQUE_PAIRS images ∧
    (∀ k ∈ images.take (UNIQUE_PAIRS images),
      (createDeck images draws).countP (fun c => decide (c.src = k)) = 2) ∧
    (∀ c ∈ createDeck images draws, c.src ∈ images.take (UNIQUE_PAIRS images)) ∧
    (∀ c ∈ createDeck images draws, c.matched = false) := by
  refine ⟨by simp [UNIQUE_PAIRS], createDeck_length images draws, ?_, ?_,
    createDeck_unmatched images draws⟩
  · intro k hk
    have hcount : List.count k ((createDeck images draws).map Card.src) = 2 := by
      rw [(createDeck_srcs images draws).count_eq, count_doubled]
      have hnd : (pickImages images).Nodup := hdistinct.sublist (List.take_sublist _ _)
      have : List.count k (pickImages images) = 1 :=
        List.count_eq_one_of_mem hnd hk
      omega
    rw [List.count, List.countP_map] at hcount
    rw [← hcount]
    apply List.countP_congr
    intro c _
    simp [Function.comp]
  · intro c hc
    have hmem : c.src ∈ (createDeck images draws).map Card.src := List.mem_map_of_mem _ hc
    have := (createDeck_srcs images draws).mem_iff.mp hmem
    simp only [List.mem_flatMap] at this
    rcases this with ⟨s, hs, hcs⟩
    simp at hcs
    rw [hcs]
    exact hs

/-- C1 at the image list of the script, with the draws that exchange nothing. -/
theorem createDeck_two_per_key_witness :
    IMAGE_FILES.Nodup ∧
    (UNIQUE_PAIRS IMAGE_FILES ≤ IMAGE_FILES.length ∧
    (createDeck IMAGE_FILES keepDraws).length = 2 * UNIQUE_PAIRS IMAGE_FILES ∧
    (∀ k ∈ IMAGE_FILES.take (UNIQUE_PAIRS IMAGE_FILES),
      (createDeck IMAGE_FILES keepDraws).countP (fun c => decide (c.src = k)) = 2) ∧
    (∀ c ∈ createDeck IMAGE_FILES keepDraws,
      c.src ∈ IMAGE_FILES.take (UNIQUE_PAIRS IMAGE_FILES)) ∧
    (∀ c ∈ createDeck IMAGE_FILES keepDraws, c.matched = false)) :=
  ⟨by decide, createDeck_two_per_key IMAGE_FILES (by decide) keepDraws⟩

/-! ## Frame lemmas: the fields each helper leaves alone -/

@[simp] theorem clearInterval_deck (handle : Option Nat) (g : Game) :
    (clearInterval handle g).deck = g.deck := by
  unfold clearInterval; split <;> rfl

@[simp] theorem clearInterval_flipped (handle : Option Nat) (g : Game) :
    (clearInterval handle g).flipped = g.flipped := by
  unfold clearInterval; split <;> rfl

@[simp] theorem clearInterval_matchedCount (handle : Option Nat) (g : Game) :
    (clearInterval handle g).matchedCount = g.matchedCount := by
  unfold clearInterval; split <;> rfl

@[simp] theorem clearInterval_moves (handle : Option Nat) (g : Game) :
    (clearInterval handle g).moves = g.moves := by
  unfold clearInterval; split <;> rfl

@[simp] theorem clearInterval_score (handle : Option Nat) (g : Game) :
    (clearInterval handle g).score = g.score := by
  unfold clearInterval; split <;> rfl

@[simp] theorem clearInterval_timerSeconds (handle : Option Nat) (g : Game) :
    (clearInterval handle g).timerSeconds = g.timerSeconds := by
  unfold clearInterval; split <;> rfl

@[simp] theorem clearInterval_timerInterval (handle : Option Nat) (g : Game) :
    (clearInterval handle g).timerInterval = g.timerInterval := by
  unfold clearInterval; split <;> rfl

@[simp] theorem clearInterval_timerRunning (handle : Option Nat) (g : Game) :
    (clearInterval handle g).timerRunning = g.timerRunning := by
  unfold clearInterval; split <;> rfl

@[simp] theorem clearInterval_nextHandle (handle : Option Nat) (g : Game) :
    (clearInterval handle g).nextHandle = g.nextHandle := by
  unfold clearInterval; split <;> rfl

@[simp] theorem clearInterval_pending (handle : Option Nat) (g : Game) :
    (clearInterval handle g).pending = g.pending := by
  unfold clearInterval; split <;> rfl

@[simp] theorem clearInterval_board (handle : Option Nat) (g : Game) :
    (clearInterval handle g).board = g.board := by
  unfold clearInterval; split <;> rfl

@[simp] theorem clearInterval_scoreText (handle : Option Nat) (g : Game) :
    (clearInterval handle g).scoreText = g.scoreText := by
  unfold clearInterval; split <;> rfl

@[simp] theorem clearInterval_movesText (handle : Option Nat) (g : Game) :
    (clearInterval handle g).movesText = g.movesText := by
  unfold clearInterval; split <;> rfl

@[simp] theorem clearInterval_timerText (handle : Option Nat) (g : Game) :
    (clearInterval handle g).timerText = g.timerText := by
  unfold clearInterval; split <;> rfl

@[simp] theorem clearInterval_messageText (handle : Option Nat) (g : Game) :
    (clearInterval handle g).messageText = g.messageText := by
  unfold clearInterval; split <;> rfl

@[simp] theorem clearInterval_messageHidden (handle : Option Nat) (g : Game) :
    (clearInterval handle g).messageHidden = g.messageHidden := by
  unfold clearInterval; split <;> rfl

@[simp] theorem updateTimerDisplay_deck (g : Game) :
    (updateTimerDisplay g).deck = g.deck := by
  rfl

@[simp] theorem updateTimerDisplay_flipped (g : Game) :
    (updateTimerDisplay g).flipped = g.flipped := by
  rfl

@[simp] theorem updateTimerDisplay_matchedCount (g : Game) :
    (updateTimerDisplay g).matchedCount = g.matchedCount := by
  rfl

@[simp] theorem updateTimerDisplay_moves (g : Game) :
    (updateTimerDisplay g).moves = g.moves := by
  rfl

@[simp] theorem updateTimerDisplay_score (g : Game) :
    (updateTimerDisplay g).score = g.score := by
  rfl

@[simp] theorem updateTimerDisplay_timerSeconds (g : Game) :
    (updateTimerDisplay g).timerSeconds = g.timerSeconds := by
  rfl

@[simp] theorem updateTimerDisplay_timerInterval (g : Game) :
    (updateTimerDisplay g).timerInterval = g.timerInterval := by
  rfl

@[simp] theorem updateTimerDisplay_timerRunning (g : Game) :
    (updateTimerDisplay g).timerRunning = g.timerRunning := by
  rfl

@[simp] theorem updateTimerDisplay_liveIntervals (g : Game) :
    (updateTimerDisplay g).liveIntervals = g.liveIntervals := by
  rfl

@[simp] theorem updateTimerDisplay_nextHandle (g : Game) :
    (updateTimerDisplay g).nextHandle = g.nextHandle := by
  rfl

@[simp] theorem updateTimerDisplay_pending (g : Game) :
    (updateTimerDisplay g).pending = g.pending := by
  rfl

@[simp] theorem updateTimerDisplay_board (g : Game) :
    (updateTimerDisplay g).board = g.board := by
  rfl

@[simp] theorem updateTimerDisplay_scoreText (g : Game) :
    (updateTimerDisplay g).scoreText = g.scoreText := by
  rfl

@[simp] theorem updateTimerDisplay_movesText (g : Game) :
    (updateTimerDisplay g).movesText = g.movesText := by
  rfl

@[simp] theorem updateTimerDisplay_messageText (g : Game) :
    (updateTimerDisplay g).messageText = g.messageText := by
  rfl

@[simp] theorem updateTimerDisplay_messageHidden (g : Game) :
    (updateTimerDisplay g).messageHidden = g.messageHidden := by
  rfl

@[simp] theorem showMessage_deck (text : String) (g : Game) :
    (showMessage text g).deck = g.deck := by
  rfl

@[simp] theorem showMessage_flipped (text : String) (g : Game) :
    (showMessage text g).flipped = g.flipped := by
  rfl

@[simp] theorem showMessage_matchedCount (text : String) (g : Game) :
    (showMessage text g).matchedCount = g.matchedCount := by
  rfl

@[simp] theorem showMessage_moves (text : String) (g : Game) :
    (showMessage text g).moves = g.moves := by
  rfl

@[simp] theorem showMessage_score (text : String) (g : Game) :
    (showMessage text g).score = g.score := by
  rfl

@[simp] theorem showMessage_timerSeconds (text : String) (g : Game) :
    (showMessage text g).timerSeconds = g.timerSeconds := by
  rfl

@[simp] theorem showMessage_timerInterval (text : String) (g : Game) :
    (showMessage text g).timerInterval = g.timerInterval := by
  rfl

@[simp] theorem showMessage_timerRunning (text : String) (g : Game) :
    (showMessage text g).timerRunning = g.timerRunning := by
  rfl

@[simp] theorem showMessage_liveIntervals (text : String) (g : Game) :
    (showMessage text g).liveIntervals = g.liveIntervals := by
  rfl

@[simp] theorem showMessage_nextHandle (text : String) (g : Game) :
    (showMessage text g).nextHandle = g.nextHandle := by
  rfl

@[simp] theorem showMessage_board (text : String) (g : Game) :
    (showMessage text g).board = g.board := by
  rfl

@[simp] theorem showMessage_scoreText (text : String) (g : Game) :
    (showMessage text g).scoreText = g.scoreText := by
  rfl

@[simp] theorem showMessage_movesText (text : String) (g : Game) :
    (showMessage text g).movesText = g.movesText := by
  rfl

@[simp] theorem showMessage_timerText (text : String) (g : Game) :
    (showMessage text g).timerText = g.timerText := by
  rfl

@[simp] theorem endGame_deck (won : Bool) (g : Game) :
    (endGame won g).deck = g.deck := by
  simp [endGame]

@[simp] theorem endGame_flipped (won : Bool) (g : Game) :
    (endGame won g).flipped = g.flipped := by
  simp [endGame]

@[simp] theorem endGame_matchedCount (won : Bool) (g : Game) :
    (endGame won g).matchedCount = g.matchedCount := by
  simp [endGame]

@[simp] theorem endGame_moves (won : Bool) (g : Game) :
    (endGame won g).moves = g.moves := by
  simp [endGame]

@[simp] theorem endGame_score (won : Bool) (g : Game) :
    (endGame won g).score = g.score := by
  simp [endGame]

@[simp] theorem endGame_timerSeconds (won : Bool) (g : Game) :
    (endGame won g).timerSeconds = g.timerSeconds := by
  simp [endGame]

@[simp] theorem endGame_timerInterval (won : Bool) (g : Game) :
    (endGame won g).timerInterval = g.timerInterval := by
  simp [endGame]

@[simp] theorem endGame_nextHandle (won : Bool) (g : Game) :
    (endGame won g).nextHandle = g.nextHandle := by
  simp [endGame]

@[simp] theorem endGame_board (won : Bool) (g : Game) :
    (endGame won g).board = g.board := by
  simp [endGame]

@[simp] theorem endGame_scoreText (won : Bool) (g : Game) :
    (endGame won g).scoreText = g.scoreText := by
  simp [endGame]

@[simp] theorem endGame_movesText (won : Bool) (g : Game) :
    (endGame won g).movesText = g.movesText := by
  simp [endGame]

@[simp] theorem endGame_timerText (won : Bool) (g : Game) :
    (endGame won g).timerText = g.timerText := by
  simp [endGame]

@[simp] theorem startTimer_deck (g : Game) :
    (startTimer g).deck = g.deck := by
  unfold startTimer; split <;> rfl

@[simp] theorem startTimer_flipped (g : Game) :
    (startTimer g).flipped = g.flipped := by
  unfold startTimer; split <;> rfl

@[simp] theorem startTimer_matchedCount (g : Game) :
    (startTimer g).matchedCount = g.matchedCount := by
  unfold startTimer; split <;> rfl

@[simp] theorem startTimer_moves (g : Game) :
    (startTimer g).moves = g.moves := by
  unfold startTimer; split <;> rfl

@[simp] theorem startTimer_score (g : Game) :
    (startTimer g).score = g.score := by
  unfold startTimer; split <;> rfl

@[simp] theorem startTimer_timerSeconds (g : Game) :
    (startTimer g).timerSeconds = g.timerSeconds := by
  unfold startTimer; split <;> rfl

@[simp] theorem startTimer_pending (g : Game) :
    (startTimer g).pending = g.pending := by
  unfold startTimer; split <;> rfl

@[simp] theorem startTimer_board (g : Game) :
    (startTimer g).board = g.board := by
  unfold startTimer; split <;> rfl

@[simp] theorem startTimer_scoreText (g : Game) :
    (startTimer g).scoreText = g.scoreText := by
  unfold startTimer; split <;> rfl

@[simp] theorem startTimer_movesText (g : Game) :
    (startTimer g).movesText = g.movesText := by
  unfold startTimer; split <;> rfl

@[simp] theorem startTimer_messageText (g : Game) :
    (startTimer g).messageText = g.messageText := by
  unfold startTimer; split <;> rfl

@[simp] theorem startTimer_messageHidden (g : Game) :
    (startTimer g).messageHidden = g.messageHidden := by
  unfold startTimer; split <;> rfl

@[simp] theorem flipCard_deck (index : Nat) (g : Game) :
    (flipCard index g).deck = g.deck := by
  unfold flipCard; split <;> rfl

@[simp] theorem flipCard_flipped (index : Nat) (g : Game) :
    (flipCard index g).flipped = g.flipped := by
  unfold flipCard; split <;> rfl

@[simp] theorem flipCard_matchedCount (index : Nat) (g : Game) :
    (flipCard index g).matchedCount = g.matchedCount := by
  unfold flipCard; split <;> rfl

@[simp] theorem flipCard_moves (index : Nat) (g : Game) :
    (flipCard index g).moves = g.moves := by
  unfold flipCard; split <;> rfl

@[simp] theorem flipCard_score (index : Nat) (g : Game) :
    (flipCard index g).score = g.score := by
  unfold flipCard; split <;> rfl

@[simp] theorem flipCard_timerSeconds (index : Nat) (g : Game) :
    (flipCard index g).timerSeconds = g.timerSeconds := by
  unfold flipCard; split <;> rfl

@[simp] theorem flipCard_timerInterval (index : Nat) (g : Game) :
    (flipCard index g).timerInterval = g.timerInterval := by
  unfold flipCard; split <;> rfl

@[simp] theorem flipCard_timerRunning (index : Nat) (g : Game) :
    (flipCard index g).timerRunning = g.timerRunning := by
  unfold flipCard; split <;> rfl

@[simp] theorem flipCard_liveIntervals (index : Nat) (g : Game) :
    (flipCard index g).liveIntervals = g.liveIntervals := by
  unfold flipCard; split <;> rfl

@[simp] theorem flipCard_nextHandle (index : Nat) (g : Game) :
    (flipCard index g).nextHandle = g.nextHandle := by
  unfold flipCard; split <;> rfl

@[simp] theorem flipCard_pending (index : Nat) (g : Game) :
    (flipCard index g).pending = g.pending := by
  unfold flipCard; split <;> rfl

@[simp] theorem flipCard_scoreText (index : Nat) (g : Game) :
    (flipCard index g).scoreText = g.scoreText := by
  unfold flipCard; split <;> rfl

@[simp] theorem flipCard_movesText (index : Nat) (g : Game) :
    (flipCard index g).movesText = g.movesText := by
  unfold flipCard; split <;> rfl

@[simp] theorem flipCard_timerText (index : Nat) (g : Game) :
    (flipCard index g).timerText = g.timerText := by
  unfold flipCard; split <;> rfl

@[simp] theorem flipCard_messageText (index : Nat) (g : Game) :
    (flipCard index g).messageText = g.messageText := by
  unfold flipCard; split <;> rfl

@[simp] theorem flipCard_messageHidden (index : Nat) (g : Game) :
    (flipCard index g).messageHidden = g.messageHidden := by
  unfold flipCard; split <;> rfl

@[simp] theorem unflipCard_deck (index : Nat) (g : Game) :
    (unflipCard index g).deck = g.deck := by
  unfold unflipCard; split <;> rfl

@[simp] theorem unflipCard_flipped (index : Nat) (g : Game) :
    (unflipCard index g).flipped = g.flipped := by
  unfold unflipCard; split <;> rfl

@[simp] theorem unflipCard_matchedCount (index : Nat) (g : Game) :
    (unflipCard index g).matchedCount = g.matchedCount := by
  unfold unflipCard; split <;> rfl

@[simp] theorem unflipCard_moves (index : Nat) (g : Game) :
    (unflipCard index g).moves = g.moves := by
  unfold unflipCard; split <;> rfl

@[simp] theorem unflipCard_score (index : Nat) (g : Game) :
    (unflipCard index g).score = g.score := by
  unfold unflipCard; split <;> rfl

@[simp] theorem unflipCard_timerSeconds (index : Nat) (g : Game) :
    (unflipCard index g).timerSeconds = g.timerSeconds := by
  unfold unflipCard; split <;> rfl

@[simp] theorem unflipCard_timerInterval (index : Nat) (g : Game) :
    (unflipCard index g).timerInterval = g.timerInterval := by
  unfold unflipCard; split <;> rfl

@[simp] theorem unflipCard_timerRunning (index : Nat) (g : Game) :
    (unflipCard index g).timerRunning = g.timerRunning := by
  unfold unflipCard; split <;> rfl

@[simp] theorem unflipCard_liveIntervals (index : Nat) (g : Game) :
    (unflipCard index g).liveIntervals = g.liveIntervals := by
  unfold unflipCard; split <;> rfl

@[simp] theorem unflipCard_nextHandle (index : Nat) (g : Game) :
    (unflipCard index g).nextHandle = g.nextHandle := by
  unfold unflipCard; split <;> rfl

@[simp] theorem unflipCard_pending (index : Nat) (g : Game) :
    (unflipCard index g).pending = g.pending := by
  unfold unflipCard; split <;> rfl

@[simp] theorem unflipCard_scoreText (index : Nat) (g : Game) :
    (unflipCard index g).scoreText = g.scoreText := by
  unfold unflipCard; split <;> rfl

@[simp] theorem unflipCard_movesText (index : Nat) (g : Game) :
    (unflipCard index g).movesText = g.movesText := by
  unfold unflipCard; split <;> rfl

@[simp] theorem unflipCard_timerText (index : Nat) (g : Game) :
    (unflipCard index g).timerText = g.timerText := by
  unfold unflipCard; split <;> rfl

@[simp] theorem unflipCard_messageText (index : Nat) (g : Game) :
    (unflipCard index g).messageText = g.messageText := by
  unfold unflipCard; split <;> rfl

@[simp] theorem unflipCard_messageHidden (index : Nat) (g : Game) :
    (unflipCard index g).messageHidden = g.messageHidden := by
  unfold unflipCard; split <;> rfl

@[simp] theorem addMatchedClass_deck (index : Nat) (g : Game) :
    (addMatchedClass index g).deck = g.deck := by
  unfold addMatchedClass; split <;> rfl

@[simp] theorem addMatchedClass_flipped (index : Nat) (g : Game) :
    (addMatchedClass index g).flipped = g.flipped := by
  unfold addMatchedClass; split <;> rfl

@[simp] theorem addMatchedClass_matchedCount (index : Nat) (g : Game) :
    (addMatchedClass index g).matchedCount = g.matchedCount := by
  unfold addMatchedClass; split <;> rfl

@[simp] theorem addMatchedClass_moves (index : Nat) (g : Game) :
    (addMatchedClass index g).moves = g.moves := by
  unfold addMatchedClass; split <;> rfl

@[simp] theorem addMatchedClass_score (index : Nat) (g : Game) :
    (addMatchedClass index g).score = g.score := by
  unfold addMatchedClass; split <;> rfl

@[simp] theorem addMatchedClass_timerSeconds (index : Nat) (g : Game) :
    (addMatchedClass index g).timerSeconds = g.timerSeconds := by
  unfold addMatchedClass; split <;> rfl

@[simp] theorem addMatchedClass_timerInterval (index : Nat) (g : Game) :
    (addMatchedClass index g).timerInterval = g.timerInterval := by
  unfold addMatchedClass; split <;> rfl

@[simp] theorem addMatchedClass_timerRunning (index : Nat) (g : Game) :
    (addMatchedClass index g).timerRunning = g.timerRunning := by
  unfold addMatchedClass; split <;> rfl

@[simp] theorem addMatchedClass_liveIntervals (index : Nat) (g : Game) :
    (addMatchedClass index g).liveIntervals = g.liveIntervals := by
  unfold addMatchedClass; split <;> rfl

@[simp] theorem addMatchedClass_nextHandle (index : Nat) (g : Game) :
    (addMatchedClass index g).nextHandle = g.nextHandle := by
  unfold addMatchedClass; split <;> rfl

@[simp] theorem addMatchedClass_pending (index : Nat) (g : Game) :
    (addMatchedClass index g).pending = g.pending := by
  unfold addMatchedClass; split <;> rfl

@[simp] theorem addMatchedClass_scoreText (index : Nat) (g : Game) :
    (addMatchedClass index g).scoreText = g.scoreText := by
  unfold addMatchedClass; split <;> rfl

@[simp] theorem addMatchedClass_movesText (index : Nat) (g : Game) :
    (addMatchedClass index g).movesText = g.movesText := by
  unfold addMatchedClass; split <;> rfl

@[simp] theorem addMatchedClass_timerText (index : Nat) (g : Game) :
    (addMatchedClass index g).timerText = g.timerText := by
  unfold addMatchedClass; split <;> rfl

@[simp] theorem addMatchedClass_messageText (index : Nat) (g : Game) :
    (addMatchedClass index g).messageText = g.messageText := by
  unfold addMatchedClass; split <;> rfl

@[simp] theorem addMatchedClass_messageHidden (index : Nat) (g : Game) :
    (addMatchedClass index g).messageHidden = g.messageHidden := by
  unfold addMatchedClass; split <;> rfl

/-! ## Clicks -/

/-- C5: a click on a card that is already matched, or already in the selection, or made
while the selection holds two cards, returns the state it was given: no variable, no
timer, no pending callback and no element of the page changes. -/
theorem click_ignored (images : List String) (g : Game) (idx : Nat) (card : Card)
    (hcard : g.deck[idx]? = some card)
    (hcase : card.matched = true ∨ idx ∈ g.flipped ∨ g.flipped.length = 2) :
    onCardClick images idx g = g ∧ step images (Event.click idx) g = g := by
  have h1 : onCardClick images idx g = g := by
    unfold onCardClick
    rw [hcard]
    rcases hcase with h | h | h
    · simp [h]
    · simp [h]
    · simp [h]
  refine ⟨h1, ?_⟩
  simp only [step]
  split
  · exact h1
  · rfl

/-- C5 on the deck `[A, B, A, B]`: with cards 0 and 1 selected and their mismatch callback
pending, a click on card 2 leaves the whole state as it was. -/
theorem click_ignored_witness :
    (onCardClick twoImages 1 (onCardClick twoImages 0 freshABAB)).flipped.length = 2 ∧
    onCardClick twoImages 2 (onCardClick twoImages 1 (onCardClick twoImages 0 freshABAB))
      = onCardClick twoImages 1 (onCardClick twoImages 0 freshABAB) ∧
    step twoImages (Event.click 2) (onCardClick twoImages 1 (onCardClick twoImages 0 freshABAB))
      = onCardClick twoImages 1 (onCardClick twoImages 0 freshABAB) :=
  ⟨by decide,
   click_ignored twoImages (onCardClick twoImages 1 (onCardClick twoImages 0 freshABAB)) 2
     { id := "1-A", src := "A", matched := false } (by decide) (Or.inr (Or.inr (by decide)))⟩

theorem onCardClick_second (images : List String) (g : Game) (a b : Nat) (cb : Card)
    (hsel : g.flipped = [a]) (hb : g.deck[b]? = some cb) (hab : b ≠ a)
    (hun : cb.matched = false) :
    onCardClick images b g = checkMatch images (secondSelected a b g) := by
  unfold onCardClick secondSelected
  rw [hb]
  have hab' : ¬ a = b := fun h => hab h.symm
  cases hrun : g.timerRunning <;> simp [hun, hsel, hab, hab']

theorem secondSelected_frame (a b : Nat) (g : Game) :
    (secondSelected a b g).deck = g.deck ∧
    (secondSelected a b g).flipped = [a, b] ∧
    (secondSelected a b g).matchedCount = g.matchedCount ∧
    (secondSelected a b g).moves = g.moves + 1 ∧
    (secondSelected a b g).score = g.score ∧
    (secondSelected a b g).timerSeconds = g.timerSeconds ∧
    (secondSelected a b g).pending = g.pending ∧
    (secondSelected a b g).messageText = g.messageText ∧
    (secondSelected a b g).messageHidden = g.messageHidden := by
  unfold secondSelected
  cases g.timerRunning <;> simp

/-- The fields of the state after `checkMatch` found a match. -/
theorem checkMatch_match (images : List String) (g : Game) (a b : Nat) (ca cb : Card)
    (hsel : g.flipped = [a, b]) (ha : g.deck[a]? = some ca) (hb : g.deck[b]? = some cb)
    (hsame : ca.src = cb.src) :
    (checkMatch images g).deck = setMatched (setMatched g.deck a) b ∧
    (checkMatch images g).matchedCount = g.matchedCount + 1 ∧
    (checkMatch images g).score = g.score + 10 ∧
    (checkMatch images g).flipped = [] ∧
    (checkMatch images g).moves = g.moves ∧
    (checkMatch images g).timerSeconds = g.timerSeconds ∧
    (checkMatch images g).board = g.board := by
  unfold checkMatch
  simp only [hsel, ha, hb, hsame, if_true]
  split <;> simp

/-- The state after `checkMatch` found a mismatch. -/
theorem checkMatch_mismatch (images : List String) (g : Game) (a b : Nat) (ca cb : Card)
    (hsel : g.flipped = [a, b]) (ha : g.deck[a]? = some ca) (hb : g.deck[b]? = some cb)
    (hdiff : ca.src ≠ cb.src) :
    checkMatch images g =
      { g with score := max 0 (g.score - 1), scoreText := toString (max 0 (g.score - 1)),
               pending := g.pending ++ [Deferred.unflipPair a b] } := by
  unfold checkMatch
  simp only [hsel, ha, hb, hdiff, if_false]

theorem length_setMatched (deck : List Card) (i : Nat) :
    (setMatched deck i).length = deck.length := by
  unfold setMatched
  split <;> simp

theorem getElem?_setMatched (deck : List Card) (i k : Nat) :
    (setMatched deck i)[k]? =
      if k = i then (deck[k]?).map (fun c => { c with matched := true }) else deck[k]? := by
  unfold setMatched
  cases h : deck[i]? with
  | none =>
    by_cases hk : k = i
    · subst hk; simp [h]
    · simp [hk]
  | some card =>
    have hi : i < deck.length := (List.getElem?_eq_some_iff.mp h).1
    by_cases hk : k = i
    · subst hk; simp [List.getElem?_set, h, hi]
    · have hk' : ¬ i = k := fun e => hk e.symm
      simp [List.getElem?_set, hk, hk']

/-- C3: in a state whose selection is the single card `a`, a click on another, unmatched
card `b` with the same image as `a` adds exactly 10 to the score and exactly 1 to
`matchedCount`, and turns the `matched` flag of `a` and of `b` to true while every other
card of the deck stays as it was. -/
theorem match_awards (images : List String) (g : Game) (a b : Nat) (ca cb : Card)
    (hsel : g.flipped = [a]) (ha : g.deck[a]? = some ca) (hb : g.deck[b]? = some cb)
    (hab : b ≠ a) (hun : cb.matched = false) (hsame : ca.src = cb.src) :
    (onCardClick images b g).score = g.score + 10 ∧
    (onCardClick images b g).matchedCount = g.matchedCount + 1 ∧
    (onCardClick images b g).deck.length = g.deck.length ∧
    (∀ i c, g.deck[i]? = some c →
      (onCardClick images b g).deck[i]? =
        some (if i = a ∨ i = b then { c with matched := true } else c)) := by
  rw [onCardClick_second images g a b cb hsel hb hab hun]
  obtain ⟨hd, hf, hm, _, hs, _⟩ := secondSelected_frame a b g
  obtain ⟨kd, km, ks, _⟩ := checkMatch_match images (secondSelected a b g) a b ca cb hf
    (by rw [hd]; exact ha) (by rw [hd]; exact hb) hsame
  refine ⟨by rw [ks, hs], by rw [km, hm], ?_, ?_⟩
  · rw [kd, length_setMatched, length_setMatched, hd]
  · intro i c hc
    rw [kd, getElem?_setMatched, getElem?_setMatched, hd, hc]
    by_cases hib : i = b
    · subst hib
      simp [hab]
    · by_cases hia : i = a <;> simp [hib, hia]

/-- C3 on the deck `[A, B, A, B]`: flipping both `A` cards of a fresh session gives
`score = 10` and `matchedCount = 1`. -/
theorem match_awards_witness :
    (onCardClick twoImages 0 freshABAB).flipped = [0] ∧
    ((onCardClick twoImages 2 (onCardClick twoImages 0 freshABAB)).score
        = (onCardClick twoImages 0 freshABAB).score + 10 ∧
     (onCardClick twoImages 2 (onCardClick twoImages 0 freshABAB)).matchedCount
        = (onCardClick twoImages 0 freshABAB).matchedCount + 1 ∧
     (onCardClick twoImages 2 (onCardClick twoImages 0 freshABAB)).deck.length
        = (onCardClick twoImages 0 freshABAB).deck.length ∧
     (∀ i c, (onCardClick twoImages 0 freshABAB).deck[i]? = some c →
       (onCardClick twoImages 2 (onCardClick twoImages 0 freshABAB)).deck[i]? =
         some (if i = 0 ∨ i = 2 then { c with matched := true } else c))) ∧
    (onCardClick twoImages 2 (onCardClick twoImages 0 freshABAB)).score = 10 ∧
    (onCardClick twoImages 2 (onCardClick twoImages 0 freshABAB)).matchedCount = 1 :=
  ⟨by decide,
   match_awards twoImages (onCardClick twoImages 0 freshABAB) 0 2
     { id := "0-A", src := "A", matched := false } { id := "1-A", src := "A", matched := false }
     (by decide) (by decide) (by decide) (by decide) rfl rfl,
   by decide, by decide⟩

/-! ## The locked selection -/

theorem onCardClick_skip (images : List String) (g : Game) (idx : Nat) (card : Card)
    (hcard : g.deck[idx]? = some card)
    (hcase : card.matched = true ∨ idx ∈ g.flipped) : onCardClick images idx g = g := by
  unfold onCardClick
  rw [hcard]
  rcases hcase with h | h <;> simp [h]

theorem onCardClick_locked (images : List String) (idx : Nat) (g : Game)
    (hfull : g.flipped.length = 2) : onCardClick images idx g = g := by
  unfold onCardClick
  split
  · rfl
  · simp [hfull]

@[simp] theorem timerTick_flipped (g : Game) : (timerTick g).flipped = g.flipped := by
  unfold timerTick
  dsimp only
  split <;> simp

theorem step_keeps_selection (images : List String) (e : Event) (g : Game)
    (hfull : g.flipped.length = 2) (hkeep : keepsSelection g e = true) :
    (step images e g).flipped = g.flipped := by
  cases e with
  | click idx =>
    simp only [step]
    split
    · rw [onCardClick_locked images idx g hfull]
    · rfl
  | tick h =>
    simp only [step]
    split <;> simp
  | fire k =>
    simp only [step]
    cases hk : g.pending[k]? with
    | none => rfl
    | some d =>
      cases d with
      | markMatched a b => simp [runDeferred]
      | unflipPair a b => simp [keepsSelection, hk] at hkeep
      | hideMessage => simp [runDeferred]
  | reset draws => simp [keepsSelection] at hkeep

theorem run_keeps_selection (images : List String) :
    ∀ (es : List Event) (g : Game), g.flipped.length = 2 → quietRun images es g →
      (run images es g).flipped = g.flipped
  | [], _, _, _ => rfl
  | e :: es, g, hfull, hquiet => by
    have hstep := step_keeps_selection images e g hfull hquiet.1
    simp only [run]
    rw [run_keeps_selection images es (step images e g) (by rw [hstep]; exact hfull) hquiet.2,
      hstep]

theorem getElem?_unflipCard_board (i k : Nat) (g : Game) :
    (unflipCard i g).board[k]? =
      if k = i then (g.board[k]?).map (fun el => { el with flipped := false })
      else g.board[k]? := by
  unfold unflipCard
  cases h : g.board[i]? with
  | none =>
    by_cases hk : k = i
    · subst hk; simp [h]
    · simp [hk]
  | some el =>
    have hi : i < g.board.length := (List.getElem?_eq_some_iff.mp h).1
    by_cases hk : k = i
    · subst hk; simp [List.getElem?_set, h, hi]
    · have hk' : ¬ i = k := fun e => hk e.symm
      simp [List.getElem?_set, hk, hk']

theorem unflipCard_down (i : Nat) (g : Game) (el : CardEl)
    (hel : (unflipCard i g).board[i]? = some el) : el.flipped = false := by
  rw [getElem?_unflipCard_board, if_pos rfl] at hel
  rcases Option.map_eq_some'.mp hel with ⟨x, _, rfl⟩
  rfl

theorem unflipCard_keeps_down (i k : Nat) (g : Game)
    (hdown : ∀ el, g.board[k]? = some el → el.flipped = false) (el : CardEl)
    (hel : (unflipCard i g).board[k]? = some el) : el.flipped = false := by
  rw [getElem?_unflipCard_board] at hel
  split at hel
  · rcases Option.map_eq_some'.mp hel with ⟨x, _, rfl⟩
    rfl
  · exact hdown el hel

/-- The mismatch branch: in a state whose selection is the single card `a`, a click on
another, unmatched card `b` with a different image sets the score to `max(0, score - 1)`,
leaves `matchedCount` and the whole deck (so every `matched` flag) as they were, and
leaves the selection at `[a, b]` with the mismatch callback pending. The selection then
stays `[a, b]` through every run of clicks, ticks and callbacks other than mismatch
callbacks, and a mismatch callback for `a` and `b`, in whatever state it runs, removes
the class `flipped` from both elements and empties the selection. -/
theorem mismatch_penalty (images : List String) (g : Game) (a b : Nat) (ca cb : Card)
    (hsel : g.flipped = [a]) (ha : g.deck[a]? = some ca) (hb : g.deck[b]? = some cb)
    (hab : b ≠ a) (hun : cb.matched = false) (hdiff : ca.src ≠ cb.src) :
    (onCardClick images b g).score = max 0 (g.score - 1) ∧
    0 ≤ (onCardClick images b g).score ∧
    (onCardClick images b g).matchedCount = g.matchedCount ∧
    (onCardClick images b g).deck = g.deck ∧
    (onCardClick images b g).flipped = [a, b] ∧
    (onCardClick images b g).pending = g.pending ++ [Deferred.unflipPair a b] ∧
    (∀ es, quietRun images es (onCardClick images b g) →
      (run images es (onCardClick images b g)).flipped = [a, b]) ∧
    (∀ g2 : Game,
      (runDeferred (Deferred.unflipPair a b) g2).flipped = [] ∧
      ∀ i el, (i = a ∨ i = b) →
        (runDeferred (Deferred.unflipPair a b) g2).board[i]? = some el → el.flipped = false) := by
  obtain ⟨hd, hf, hm, _, hs, _, hp, _⟩ := secondSelected_frame a b g
  have hcm := checkMatch_mismatch images (secondSelected a b g) a b ca cb hf
    (by rw [hd]; exact ha) (by rw [hd]; exact hb) hdiff
  have hclick := onCardClick_second images g a b cb hsel hb hab hun
  have hflip : (onCardClick images b g).flipped = [a, b] := by rw [hclick, hcm]; exact hf
  refine ⟨by rw [hclick, hcm]; simp [hs], by rw [hclick, hcm]; simp,
    by rw [hclick, hcm]; exact hm, by rw [hclick, hcm]; exact hd, hflip,
    by rw [hclick, hcm]; simp [hp], ?_, ?_⟩
  · intro es hq
    rw [run_keeps_selection images es _ (by rw [hflip]; rfl) hq, hflip]
  · intro g2
    refine ⟨rfl, ?_⟩
    intro i el hi hel
    rcases hi with h | h
    · subst h
      exact unflipCard_keeps_down b i (unflipCard i g2) (fun x hx => unflipCard_down i g2 x hx)
        el hel
    · subst h
      exact unflipCard_down i (unflipCard a g2) el hel

/-- The mismatch branch on the deck `[A, B, A, B]`: flipping an `A` and then a `B` in a
fresh session leaves the score at 0, with both cards selected until the callback runs. -/
theorem mismatch_penalty_witness :
    ((onCardClick twoImages 0 freshABAB).flipped = [0] ∧
     (onCardClick twoImages 0 freshABAB).deck[0]? =
        some { id := "0-A", src := "A", matched := false } ∧
     (onCardClick twoImages 0 freshABAB).deck[1]? =
        some { id := "2-B", src := "B", matched := false }) ∧
    ((onCardClick twoImages 1 (onCardClick twoImages 0 freshABAB)).score
        = max 0 ((onCardClick twoImages 0 freshABAB).score - 1) ∧
     0 ≤ (onCardClick twoImages 1 (onCardClick twoImages 0 freshABAB)).score ∧
     (onCardClick twoImages 1 (onCardClick twoImages 0 freshABAB)).matchedCount
        = (onCardClick twoImages 0 freshABAB).matchedCount ∧
     (onCardClick twoImages 1 (onCardClick twoImages 0 freshABAB)).deck
        = (onCardClick twoImages 0 freshABAB).deck ∧
     (onCardClick twoImages 1 (onCardClick twoImages 0 freshABAB)).flipped = [0, 1]) ∧
    (onCardClick twoImages 1 (onCardClick twoImages 0 freshABAB)).score = 0 ∧
    (runDeferred (Deferred.unflipPair 0 1)
      (onCardClick twoImages 1 (onCardClick twoImages 0 freshABAB))).flipped = [] :=
  have h := mismatch_penalty twoImages (onCardClick twoImages 0 freshABAB) 0 1
    { id := "0-A", src := "A", matched := false } { id := "2-B", src := "B", matched := false }
    (by decide) (by decide) (by decide) (by decide) rfl (by decide)
  ⟨⟨by decide, by decide, by decide⟩, ⟨h.1, h.2.1, h.2.2.1, h.2.2.2.1, h.2.2.2.2.1⟩,
   by decide, by decide⟩

/-! ## The invariant -/

theorem clearInterval_nil (handle : Option Nat) (g : Game) (h : g.liveIntervals = []) :
    (clearInterval handle g).liveIntervals = [] := by
  unfold clearInterval
  split
  · exact h
  · simp [h]

theorem clearInterval_own (g g2 : Game) (hok : TimerOK g)
    (hlive : g2.liveIntervals = g.liveIntervals) :
    (clearInterval g.timerInterval g2).liveIntervals = [] := by
  cases hrun : g.timerRunning with
  | false => exact clearInterval_nil _ g2 (by rw [hlive]; exact hok.2 hrun)
  | true =>
    obtain ⟨h, hint, hl⟩ := hok.1 hrun
    simp [clearInterval, hint, hlive, hl]

@[simp] theorem endGame_timerRunning (won : Bool) (g : Game) :
    (endGame won g).timerRunning = false := by
  simp [endGame]

theorem endGame_liveIntervals (won : Bool) (g : Game) :
    (endGame won g).liveIntervals = (clearInterval g.timerInterval g).liveIntervals := by
  simp only [endGame, showMessage]
  cases g.timerInterval <;> rfl

theorem endGame_stops (won : Bool) (g : Game) (hok : TimerOK g) :
    (endGame won g).liveIntervals = [] := by
  rw [endGame_liveIntervals]
  exact clearInterval_own g g hok rfl

theorem endGame_after_clear (won : Bool) (g : Game) (hok : TimerOK g) :
    (endGame won (clearInterval g.timerInterval g)).liveIntervals = [] := by
  rw [endGame_liveIntervals]
  exact clearInterval_nil _ _ (clearInterval_own g g hok rfl)

theorem timerOK_of_stopped (g : Game) (hrun : g.timerRunning = false)
    (hlive : g.liveIntervals = []) : TimerOK g :=
  ⟨fun h => absurd (hrun.symm.trans h) (by decide), fun _ => hlive⟩

theorem timerOK_congr (g g2 : Game) (hok : TimerOK g) (h1 : g2.timerRunning = g.timerRunning)
    (h2 : g2.timerInterval = g.timerInterval) (h3 : g2.liveIntervals = g.liveIntervals) :
    TimerOK g2 := by
  unfold TimerOK
  rw [h1, h2, h3]
  exact hok

/-- After the guarded call `if (!timerRunning) startTimer()` the timer runs. -/
theorem startIfStopped (g : Game) (hok : TimerOK g) :
    TimerOK (if !g.timerRunning then startTimer g else g) ∧
    (if !g.timerRunning then startTimer g else g).timerRunning = true := by
  cases hrun : g.timerRunning with
  | true => simpa [hrun] using hok
  | false =>
    have hlive := hok.2 hrun
    simp [startTimer, hrun, updateTimerDisplay, TimerOK, hlive]

theorem resetGame_fields (images : List String) (draws : Draws) (g : Game) :
    (resetGame images draws g).deck = createDeck images draws ∧
    (resetGame images draws g).board = (createDeck images draws).map
      (fun card => { img := card.src, flipped := false, matched := false }) ∧
    (resetGame images draws g).flipped = [] ∧
    (resetGame images draws g).matchedCount = 0 ∧
    (resetGame images draws g).moves = 0 ∧
    (resetGame images draws g).score = 0 ∧
    (resetGame images draws g).timerSeconds = 120 ∧
    (resetGame images draws g).timerRunning = false ∧
    (resetGame images draws g).timerInterval = none ∧
    (resetGame images draws g).liveIntervals = (clearInterval g.timerInterval g).liveIntervals ∧
    (resetGame images draws g).messageHidden = true ∧
    (resetGame images draws g).pending = g.pending := by
  simp [resetGame, renderBoard, updateTimerDisplay]

theorem countP_unmatched_zero : ∀ deck : List Card, (∀ c ∈ deck, c.matched = false) →
    deck.countP (fun c => c.matched) = 0
  | [], _ => rfl
  | c :: rest, h => by
    have hc : c.matched = false := h c (List.mem_cons_self c rest)
    have hrest := countP_unmatched_zero rest (fun x hx => h x (List.mem_cons_of_mem c hx))
    simp [List.countP_cons, hc, hrest]

theorem inv_resetGame (images : List String) (draws : Draws) (g : Game) (hok : TimerOK g) :
    Inv images (resetGame images draws g) := by
  obtain ⟨hd, hb, hf, hm, _, _, _, hr, _, hl, _, _⟩ := resetGame_fields images draws g
  refine ⟨?_, ?_, ?_, ?_, ?_, ?_, ?_⟩
  · rw [hd, createDeck_length]
  · rw [hb, hd, List.length_map]
  · rw [hf]; exact Nat.zero_le 2
  · rw [hf]; exact List.nodup_nil
  · rw [hf]; intro i hi; cases hi
  · rw [hd, hm, countP_unmatched_zero _ (createDeck_unmatched images draws)]
  · exact timerOK_of_stopped _ hr (by rw [hl]; exact clearInterval_own g g hok rfl)

theorem timerTick_fields (g : Game) :
    (timerTick g).deck = g.deck ∧ (timerTick g).board = g.board ∧
    (timerTick g).matchedCount = g.matchedCount ∧ (timerTick g).moves = g.moves ∧
    (timerTick g).score = g.score ∧ (timerTick g).timerSeconds = g.timerSeconds - 1 := by
  unfold timerTick
  dsimp only
  split <;> simp

theorem timerTick_timerOK (g : Game) (hok : TimerOK g) : TimerOK (timerTick g) := by
  unfold timerTick
  dsimp only
  split
  · apply timerOK_of_stopped _ (endGame_timerRunning _ _)
    rw [endGame_liveIntervals]
    apply clearInterval_nil
    exact clearInterval_own g _ hok rfl
  · exact timerOK_congr g _ hok rfl rfl rfl

theorem inv_timerTick (images : List String) (g : Game) (hinv : Inv images g) :
    Inv images (timerTick g) := by
  obtain ⟨hd, hb, hm, _⟩ := timerTick_fields g
  refine ⟨?_, ?_, ?_, ?_, ?_, ?_, timerTick_timerOK g hinv.timer⟩
  · rw [hd]; exact hinv.deck_length
  · rw [hb, hd]; exact hinv.board_length
  · rw [timerTick_flipped]; exact hinv.flipped_length
  · rw [timerTick_flipped]; exact hinv.flipped_nodup
  · rw [timerTick_flipped, hd]; exact hinv.flipped_unmatched
  · rw [hd, hm]; exact hinv.matched_pairs

@[simp] theorem flipCard_board_length (index : Nat) (g : Game) :
    (flipCard index g).board.length = g.board.length := by
  unfold flipCard; split <;> simp

@[simp] theorem unflipCard_board_length (index : Nat) (g : Game) :
    (unflipCard index g).board.length = g.board.length := by
  unfold unflipCard; split <;> simp

@[simp] theorem addMatchedClass_board_length (index : Nat) (g : Game) :
    (addMatchedClass index g).board.length = g.board.length := by
  unfold addMatchedClass; split <;> simp

theorem inv_runDeferred (images : List String) (d : Deferred) (k : Nat) (g : Game)
    (hinv : Inv images g) :
    Inv images (runDeferred d { g with pending := g.pending.eraseIdx k }) := by
  cases d with
  | markMatched a b =>
    refine ⟨?_, ?_, ?_, ?_, ?_, ?_, ?_⟩
    · simpa [runDeferred] using hinv.deck_length
    · simpa [runDeferred] using hinv.board_length
    · simpa [runDeferred] using hinv.flipped_length
    · simpa [runDeferred] using hinv.flipped_nodup
    · simpa [runDeferred] using hinv.flipped_unmatched
    · simpa [runDeferred] using hinv.matched_pairs
    · exact timerOK_congr g _ hinv.timer (by simp [runDeferred]) (by simp [runDeferred])
        (by simp [runDeferred])
  | unflipPair a b =>
    refine ⟨?_, ?_, ?_, ?_, ?_, ?_, ?_⟩
    · simpa [runDeferred] using hinv.deck_length
    · simpa [runDeferred] using hinv.board_length
    · simp [runDeferred]
    · simp [runDeferred]
    · simp [runDeferred]
    · simpa [runDeferred] using hinv.matched_pairs
    · exact timerOK_congr g _ hinv.timer (by simp [runDeferred]) (by simp [runDeferred])
        (by simp [runDeferred])
  | hideMessage =>
    exact ⟨hinv.deck_length, hinv.board_length, hinv.flipped_length, hinv.flipped_nodup,
      hinv.flipped_unmatched, hinv.matched_pairs, timerOK_congr g _ hinv.timer rfl rfl rfl⟩

theorem onCardClick_first (images : List String) (g : Game) (idx : Nat) (card : Card)
    (hsel : g.flipped = []) (hcard : g.deck[idx]? = some card) (hun : card.matched = false) :
    onCardClick images idx g = firstSelected idx g := by
  unfold onCardClick firstSelected
  rw [hcard]
  cases hrun : g.timerRunning <;> simp [hun, hsel]

theorem firstSelected_frame (idx : Nat) (g : Game) :
    (firstSelected idx g).deck = g.deck ∧
    (firstSelected idx g).flipped = [idx] ∧
    (firstSelected idx g).matchedCount = g.matchedCount ∧
    (firstSelected idx g).moves = g.moves ∧
    (firstSelected idx g).score = g.score ∧
    (firstSelected idx g).timerSeconds = g.timerSeconds ∧
    (firstSelected idx g).pending = g.pending ∧
    (firstSelected idx g).board.length = g.board.length := by
  unfold firstSelected
  cases g.timerRunning <;> simp

theorem firstSelected_timer (idx : Nat) (g : Game) (hok : TimerOK g) :
    TimerOK (firstSelected idx g) ∧ (firstSelected idx g).timerRunning = true := by
  obtain ⟨h1, h2⟩ := startIfStopped g hok
  refine ⟨timerOK_congr _ _ h1 ?_ ?_ ?_, ?_⟩
  · simp [firstSelected]
  · simp [firstSelected]
  · simp [firstSelected]
  · simpa [firstSelected] using h2

theorem secondSelected_timer (a b : Nat) (g : Game) (hok : TimerOK g) :
    TimerOK (secondSelected a b g) ∧ (secondSelected a b g).timerRunning = true ∧
    (secondSelected a b g).board.length = g.board.length := by
  obtain ⟨h1, h2⟩ := startIfStopped g hok
  refine ⟨timerOK_congr _ _ h1 ?_ ?_ ?_, ?_, ?_⟩
  · simp [secondSelected]
  · simp [secondSelected]
  · simp [secondSelected]
  · simpa [secondSelected] using h2
  · unfold secondSelected
    cases g.timerRunning <;> simp

theorem checkMatch_timerOK (images : List String) (g : Game) (hok : TimerOK g) :
    TimerOK (checkMatch images g) := by
  unfold checkMatch
  split
  · split
    · split
      · dsimp only
        split
        · apply timerOK_of_stopped _ (endGame_timerRunning _ _)
          rw [endGame_liveIntervals]
          apply clearInterval_nil
          exact clearInterval_own g _ hok rfl
        · exact timerOK_congr g _ hok rfl rfl rfl
      · exact timerOK_congr g _ hok rfl rfl rfl
    · exact hok
  · exact hok

theorem countP_setMatched (deck : List Card) (i : Nat) (c : Card)
    (hc : deck[i]? = some c) (hun : c.matched = false) :
    (setMatched deck i).countP (fun c => c.matched) = deck.countP (fun c => c.matched) + 1 := by
  obtain ⟨hi, hget⟩ := List.getElem?_eq_some_iff.mp hc
  unfold setMatched
  rw [hc]
  simp only
  rw [List.countP_set _ _ _ _ hi, hget]
  simp [hun]

theorem inv_firstSelected (images : List String) (g : Game) (idx : Nat) (card : Card)
    (hinv : Inv images g) (hcard : g.deck[idx]? = some card) (hun : card.matched = false) :
    Inv images (firstSelected idx g) := by
  obtain ⟨hd, hf, hm, _, _, _, _, hb⟩ := firstSelected_frame idx g
  refine ⟨?_, ?_, ?_, ?_, ?_, ?_, (firstSelected_timer idx g hinv.timer).1⟩
  · rw [hd]; exact hinv.deck_length
  · rw [hb, hd]; exact hinv.board_length
  · rw [hf]; exact Nat.le_succ 1
  · rw [hf]; exact List.nodup_singleton idx
  · rw [hf, hd]
    intro i hi
    rw [List.mem_singleton] at hi
    subst hi
    exact ⟨card, hcard, hun⟩
  · rw [hd, hm]; exact hinv.matched_pairs

theorem inv_checkMatch_second (images : List String) (g : Game) (a b : Nat) (ca cb : Card)
    (hinv : Inv images g) (ha : g.deck[a]? = some ca) (hb : g.deck[b]? = some cb)
    (hab : b ≠ a) (huna : ca.matched = false) (hunb : cb.matched = false) :
    Inv images (checkMatch images (secondSelected a b g)) := by
  obtain ⟨hd, hf, hm, _⟩ := secondSelected_frame a b g
  obtain ⟨hok, _, hbl⟩ := secondSelected_timer a b g hinv.timer
  have hok2 := checkMatch_timerOK images _ hok
  have ha2 : (secondSelected a b g).deck[a]? = some ca := by rw [hd]; exact ha
  have hb2 : (secondSelected a b g).deck[b]? = some cb := by rw [hd]; exact hb
  by_cases hsame : ca.src = cb.src
  · obtain ⟨kd, km, _, kf, _, _, kb⟩ :=
      checkMatch_match images (secondSelected a b g) a b ca cb hf ha2 hb2 hsame
    refine ⟨?_, ?_, ?_, ?_, ?_, ?_, hok2⟩
    · rw [kd, length_setMatched, length_setMatched, hd]; exact hinv.deck_length
    · rw [kb, hbl, kd, length_setMatched, length_setMatched, hd]; exact hinv.board_length
    · rw [kf]; exact Nat.zero_le 2
    · rw [kf]; exact List.nodup_nil
    · rw [kf]; intro i hi; cases hi
    · have hb3 : (setMatched g.deck a)[b]? = some cb := by
        rw [getElem?_setMatched, if_neg hab, hb]
      rw [kd, km, hd, hm, countP_setMatched _ b cb hb3 hunb, countP_setMatched _ a ca ha huna,
        hinv.matched_pairs]
      omega
  · have hcm := checkMatch_mismatch images (secondSelected a b g) a b ca cb hf ha2 hb2 hsame
    refine ⟨?_, ?_, ?_, ?_, ?_, ?_, hok2⟩
    · rw [hcm]; simp only; rw [hd]; exact hinv.deck_length
    · rw [hcm]; simp only; rw [hbl, hd]; exact hinv.board_length
    · rw [hcm]; simp only; rw [hf]; exact Nat.le_refl 2
    · rw [hcm]; simp only; rw [hf]
      simp [Ne.symm hab]
    · rw [hcm]; simp only; rw [hf, hd]
      intro i hi
      simp only [List.mem_cons, List.mem_singleton, List.not_mem_nil, or_false] at hi
      rcases hi with h | h
      · subst h; exact ⟨ca, ha, huna⟩
      · subst h; exact ⟨cb, hb, hunb⟩
    · rw [hcm]; simp only; rw [hd, hm]; exact hinv.matched_pairs

theorem inv_onCardClick (images : List String) (idx : Nat) (g : Game) (hinv : Inv images g) :
    Inv images (onCardClick images idx g) := by
  cases hcard : g.deck[idx]? with
  | none => simpa [onCardClick, hcard] using hinv
  | some card =>
    by_cases hm : card.matched = true
    · rw [onCardClick_skip images g idx card hcard (Or.inl hm)]; exact hinv
    · have hun : card.matched = false := by simpa using hm
      by_cases hmem : idx ∈ g.flipped
      · rw [onCardClick_skip images g idx card hcard (Or.inr hmem)]; exact hinv
      · match hfl : g.flipped with
        | [] =>
          rw [onCardClick_first images g idx card hfl hcard hun]
          exact inv_firstSelected images g idx card hinv hcard hun
        | [a] =>
          have hne : idx ≠ a := by
            intro h
            apply hmem
            rw [hfl, h]
            exact List.mem_singleton_self a
          obtain ⟨ca, hca, huna⟩ := hinv.flipped_unmatched a (by rw [hfl]; exact List.mem_singleton_self a)
          rw [onCardClick_second images g a idx card hfl hcard hne hun]
          exact inv_checkMatch_second images g a idx ca card hinv hca hcard hne huna hun
        | a :: b :: rest =>
          have hlen := hinv.flipped_length
          rw [hfl] at hlen
          have hrest : rest = [] := by
            cases rest with
            | nil => rfl
            | cons x xs => simp at hlen
          rw [onCardClick_locked images idx g (by rw [hfl, hrest]; rfl)]
          exact hinv

theorem inv_step (images : List String) (e : Event) (g : Game) (hinv : Inv images g) :
    Inv images (step images e g) := by
  cases e with
  | click idx =>
    simp only [step]
    split
    · exact inv_onCardClick images idx g hinv
    · exact hinv
  | tick h =>
    simp only [step]
    split
    · exact inv_timerTick images g hinv
    · exact hinv
  | fire k =>
    simp only [step]
    split
    · exact hinv
    · exact inv_runDeferred images _ k g hinv
  | reset draws => exact inv_resetGame images draws g hinv.timer

theorem timerOK_boot (messageText : String) (messageHidden : Bool) :
    TimerOK (boot messageText messageHidden) :=
  timerOK_of_stopped _ rfl rfl

theorem reachable_inv (images : List String) (g : Game) (hreach : Reachable images g) :
    Inv images g := by
  induction hreach with
  | init messageText messageHidden draws =>
    exact inv_resetGame images draws _ (timerOK_boot messageText messageHidden)
  | step e _ ih => exact inv_step images e _ ih

theorem reachable_run (images : List String) :
    ∀ (es : List Event) (g : Game), Reachable images g → Reachable images (run images es g)
  | [], _, h => h
  | e :: es, _, h => reachable_run images es _ (Reachable.step e h)

/-! ## Invariants of the reachable states -/

/-- C10: in every state reachable from the initial reset by clicks, ticks, deferred
callbacks and resets, `matchedCount` is at most `UNIQUE_PAIRS`. -/
theorem matchedCount_le_pairs (images : List String) (g : Game)
    (hreach : Reachable images g) : g.matchedCount ≤ UNIQUE_PAIRS images := by
  have hinv := reachable_inv images g hreach
  have hle : g.deck.countP (fun c => c.matched) ≤ g.deck.length := List.countP_le_length _
  rw [hinv.matched_pairs, hinv.deck_length] at hle
  omega

/-- C10 on the deck `[A, B, A, B]` after the two `A` cards were matched. -/
theorem matchedCount_le_pairs_witness :
    (step twoImages (Event.click 2) (step twoImages (Event.click 0) freshABAB)).matchedCount = 1 ∧
    (step twoImages (Event.click 2) (step twoImages (Event.click 0) freshABAB)).matchedCount
      ≤ UNIQUE_PAIRS twoImages :=
  ⟨by decide,
   matchedCount_le_pairs twoImages _
     (Reachable.step (Event.click 2)
       (Reachable.step (Event.click 0) (Reachable.init "" true interleaveDraws)))⟩

/-! ## The end of the game -/

theorem endGame_message (won : Bool) (g : Game) :
    (endGame won g).messageHidden = false ∧
    (endGame won g).messageText =
      (if won then "You won! Score: " ++ toString g.score ++ ", Moves: " ++ toString g.moves
       else "Time's up! Score: " ++ toString g.score ++ ", Moves: " ++ toString g.moves) ∧
    (endGame won g).pending = g.pending ++ [Deferred.hideMessage] := by
  simp [endGame, showMessage]

/-- The state after `checkMatch` found the last match. -/
theorem checkMatch_win (images : List String) (g : Game) (a b : Nat) (ca cb : Card)
    (hsel : g.flipped = [a, b]) (ha : g.deck[a]? = some ca) (hb : g.deck[b]? = some cb)
    (hsame : ca.src = cb.src) (hlast : g.matchedCount + 1 = UNIQUE_PAIRS images) :
    checkMatch images g =
      endGame true (clearInterval g.timerInterval
        { g with deck := setMatched (setMatched g.deck a) b,
                 matchedCount := g.matchedCount + 1,
                 score := g.score + 10,
                 scoreText := toString (g.score + 10),
                 flipped := [],
                 pending := g.pending ++ [Deferred.markMatched a b] }) := by
  unfold checkMatch
  simp only [hsel, ha, hb, hsame, hlast, if_true]

/-- C8: when a matching second flip brings `matchedCount` to `UNIQUE_PAIRS`, the same
click ends the game as a win: `timerRunning` is false and no interval is live any more,
and the message is shown with the text `You won! Score: S, Moves: M`, where `S` and `M` are
the score and move count after this click, that is, the score before plus 10 and the
moves before plus 1. -/
theorem win_ends_game (images : List String) (g : Game) (a b : Nat) (ca cb : Card)
    (hreach : Reachable images g)
    (hsel : g.flipped = [a]) (ha : g.deck[a]? = some ca) (hb : g.deck[b]? = some cb)
    (hab : b ≠ a) (hun : cb.matched = false) (hsame : ca.src = cb.src)
    (hlast : g.matchedCount + 1 = UNIQUE_PAIRS images) :
    (onCardClick images b g).matchedCount = UNIQUE_PAIRS images ∧
    (onCardClick images b g).timerRunning = false ∧
    (onCardClick images b g).liveIntervals = [] ∧
    (onCardClick images b g).messageHidden = false ∧
    (onCardClick images b g).messageText =
      "You won! Score: " ++ toString (onCardClick images b g).score ++
        ", Moves: " ++ toString (onCardClick images b g).moves ∧
    (onCardClick images b g).score = g.score + 10 ∧
    (onCardClick images b g).moves = g.moves + 1 := by
  obtain ⟨hd, hf, hm, hmv, hs, _⟩ := secondSelected_frame a b g
  obtain ⟨hok, _, _⟩ := secondSelected_timer a b g (reachable_inv images g hreach).timer
  have ha2 : (secondSelected a b g).deck[a]? = some ca := by rw [hd]; exact ha
  have hb2 : (secondSelected a b g).deck[b]? = some cb := by rw [hd]; exact hb
  have hlast2 : (secondSelected a b g).matchedCount + 1 = UNIQUE_PAIRS images := by
    rw [hm]; exact hlast
  rw [onCardClick_second images g a b cb hsel hb hab hun,
    checkMatch_win images _ a b ca cb hf ha2 hb2 hsame hlast2]
  obtain ⟨kh, kt, _⟩ := endGame_message true (clearInterval (secondSelected a b g).timerInterval
    { secondSelected a b g with
        deck := setMatched (setMatched (secondSelected a b g).deck a) b,
        matchedCount := (secondSelected a b g).matchedCount + 1,
        score := (secondSelected a b g).score + 10,
        scoreText := toString ((secondSelected a b g).score + 10),
        flipped := [],
        pending := (secondSelected a b g).pending ++ [Deferred.markMatched a b] })
  refine ⟨?_, endGame_timerRunning _ _, ?_, kh, ?_, ?_, ?_⟩
  · simp [hlast2]
  · rw [endGame_liveIntervals]
    apply clearInterval_nil
    exact clearInterval_own _ _ hok rfl
  · rw [kt]; simp
  · simp [hs]
  · simp [hmv]

/-- C8 on the deck `[A, B, A, B]`: after the `A` pair is matched and the first `B` is
selected, the click on the second `B` wins with the message for score 20 and 2 moves. -/
theorem win_ends_game_witness :
    (step twoImages (Event.click 1) (step twoImages (Event.click 2)
      (step twoImages (Event.click 0) freshABAB))).flipped = [1] ∧
    (onCardClick twoImages 3 (step twoImages (Event.click 1) (step twoImages (Event.click 2)
      (step twoImages (Event.click 0) freshABAB)))).timerRunning = false ∧
    (onCardClick twoImages 3 (step twoImages (Event.click 1) (step twoImages (Event.click 2)
      (step twoImages (Event.click 0) freshABAB)))).liveIntervals = [] ∧
    (onCardClick twoImages 3 (step twoImages (Event.click 1) (step twoImages (Event.click 2)
      (step twoImages (Event.click 0) freshABAB)))).messageHidden = false ∧
    (onCardClick twoImages 3 (step twoImages (Event.click 1) (step twoImages (Event.click 2)
      (step twoImages (Event.click 0) freshABAB)))).messageText = "You won! Score: 20, Moves: 2" :=
  have h := win_ends_game twoImages
    (step twoImages (Event.click 1) (step twoImages (Event.click 2)
      (step twoImages (Event.click 0) freshABAB))) 1 3
    { id := "2-B", src := "B", matched := false } { id := "3-B", src := "B", matched := false }
    (Reachable.step (Event.click 1) (Reachable.step (Event.click 2)
      (Reachable.step (Event.click 0) (Reachable.init "" true interleaveDraws))))
    (by decide) (by decide) (by decide) (by decide) rfl rfl (by decide)
  ⟨by decide, h.2.1, h.2.2.1, h.2.2.2.1, by decide⟩

/-! ## The countdown -/

@[simp] theorem checkMatch_timerSeconds (images : List String) (g : Game) :
    (checkMatch images g).timerSeconds = g.timerSeconds := by
  unfold checkMatch
  split
  · split
    · split
      · dsimp only
        split <;> simp
      · rfl
    · rfl
  · rfl

@[simp] theorem onCardClick_timerSeconds (images : List String) (idx : Nat) (g : Game) :
    (onCardClick images idx g).timerSeconds = g.timerSeconds := by
  unfold onCardClick
  split
  · rfl
  · split
    · rfl
    · split
      · rfl
      · split
        · rfl
        · dsimp only
          cases g.timerRunning <;> simp <;> split <;> simp

@[simp] theorem runDeferred_timerSeconds (d : Deferred) (g : Game) :
    (runDeferred d g).timerSeconds = g.timerSeconds := by
  cases d <;> simp [runDeferred]

theorem run_timerSeconds (images : List String) :
    ∀ (es : List Event) (g : Game), (∀ e ∈ es, e.isReset = false) →
      (run images es g).timerSeconds = g.timerSeconds - (ticksRun images es g : Int)
  | [], g, _ => by simp [run, ticksRun]
  | e :: es, g, hno => by
    have ih := run_timerSeconds images es (step images e g)
      (fun x hx => hno x (List.mem_cons_of_mem e hx))
    have he := hno e (List.mem_cons_self e es)
    simp only [run, ticksRun]
    rw [ih]
    cases e with
    | click idx =>
      simp only [step]
      split <;> simp
    | tick h =>
      simp only [step]
      split
      · rw [(timerTick_fields g).2.2.2.2.2]
        push_cast
        omega
      · simp
    | fire k =>
      simp only [step]
      split <;> simp
    | reset draws => simp [Event.isReset] at he

theorem timerTick_expired (g : Game) (hlast : g.timerSeconds ≤ 1) :
    timerTick g = endGame false (clearInterval g.timerInterval
      (updateTimerDisplay { g with timerSeconds := g.timerSeconds - 1 })) := by
  have hcond : g.timerSeconds - 1 ≤ 0 := by omega
  unfold timerTick
  simp [hcond]

theorem timerTick_running (g : Game) (hmore : 1 < g.timerSeconds) :
    timerTick g = updateTimerDisplay { g with timerSeconds := g.timerSeconds - 1 } := by
  have hcond : ¬ g.timerSeconds - 1 ≤ 0 := by omega
  unfold timerTick
  simp [hcond]

/-- C9: the countdown does not depend on the input. In a run without restart that begins
with `timerSeconds = 120`, after `k` runs of the countdown callback `timerSeconds` is
`120 - k`, whatever clicks and deferred callbacks come in between: the callback subtracts
exactly 1, and no click and no deferred callback changes `timerSeconds`. The tick that
brings `timerSeconds` from 1 to 0 stops the timer (`timerRunning = false`, no live
interval) and shows the message `Time's up! Score: S, Moves: M` with the current score and
moves; a tick that leaves `timerSeconds` above 0 changes neither the timer's activity nor
the message. -/
theorem countdown_runs (images : List String) :
    (∀ (g : Game) (es : List Event), g.timerSeconds = 120 → (∀ e ∈ es, e.isReset = false) →
      (run images es g).timerSeconds = 120 - (ticksRun images es g : Int)) ∧
    (∀ g : Game, (timerTick g).timerSeconds = g.timerSeconds - 1) ∧
    (∀ (g : Game) (idx : Nat), (onCardClick images idx g).timerSeconds = g.timerSeconds) ∧
    (∀ (g : Game) (d : Deferred), (runDeferred d g).timerSeconds = g.timerSeconds) ∧
    (∀ (g : Game) (h : Nat), Reachable images g → g.liveIntervals.contains h = true →
      g.timerSeconds = 1 →
      (step images (Event.tick h) g).timerSeconds = 0 ∧
      (step images (Event.tick h) g).timerRunning = false ∧
      (step images (Event.tick h) g).liveIntervals = [] ∧
      (step images (Event.tick h) g).messageHidden = false ∧
      (step images (Event.tick h) g).messageText =
        "Time's up! Score: " ++ toString g.score ++ ", Moves: " ++ toString g.moves) ∧
    (∀ (g : Game) (h : Nat), 1 < g.timerSeconds →
      (step images (Event.tick h) g).timerRunning = g.timerRunning ∧
      (step images (Event.tick h) g).liveIntervals = g.liveIntervals ∧
      (step images (Event.tick h) g).messageHidden = g.messageHidden ∧
      (step images (Event.tick h) g).messageText = g.messageText) := by
  refine ⟨?_, fun g => (timerTick_fields g).2.2.2.2.2, fun g idx => onCardClick_timerSeconds images idx g,
    fun g d => runDeferred_timerSeconds d g, ?_, ?_⟩
  · intro g es hstart hno
    rw [run_timerSeconds images es g hno, hstart]
  · intro g h hreach hlive hone
    have hok := (reachable_inv images g hreach).timer
    simp only [step, hlive, if_true]
    rw [timerTick_expired g (by omega)]
    obtain ⟨kh, kt, _⟩ := endGame_message false (clearInterval g.timerInterval
      (updateTimerDisplay { g with timerSeconds := g.timerSeconds - 1 }))
    refine ⟨by simp [hone], endGame_timerRunning _ _, ?_, kh, ?_⟩
    · rw [endGame_liveIntervals]
      apply clearInterval_nil
      exact clearInterval_own g _ hok rfl
    · rw [kt]; simp
  · intro g h hmore
    simp only [step]
    split
    · rw [timerTick_running g hmore]
      exact ⟨rfl, rfl, rfl, rfl⟩
    · exact ⟨rfl, rfl, rfl, rfl⟩

set_option maxRecDepth 100000 in
/-- C9 on the deck `[A, B, A, B]`: one card is flipped and the countdown runs out after
exactly 120 ticks, with the loss message for score 0 and 0 moves. -/
theorem countdown_runs_witness :
    (run twoImages lossTrace freshABAB).timerSeconds
      = 120 - (ticksRun twoImages lossTrace freshABAB : Int) ∧
    ticksRun twoImages lossTrace freshABAB = 120 ∧
    (run twoImages lossTrace freshABAB).timerRunning = false ∧
    (run twoImages lossTrace freshABAB).messageText = "Time's up! Score: 0, Moves: 0" :=
  ⟨(countdown_runs twoImages).1 freshABAB lossTrace (by decide) (by decide),
   by decide, by decide, by decide⟩

/-! ## Clicks after a loss -/

set_option maxRecDepth 100000 in
/-- C6, at the failing input: in a session of the script, one card is flipped, the countdown
runs out after 120 ticks (`timerSeconds = 0`, game lost), the player flips another card
and the restarted interval ticks once. The state is reachable and `timerSeconds` is `-1`,
shown as `-1:-1`. -/
theorem timer_negative_after_loss :
    Reachable IMAGE_FILES
      (run IMAGE_FILES (lossTrace ++ [Event.click 2, Event.tick 1]) scriptStart) ∧
    (run IMAGE_FILES lossTrace scriptStart).timerSeconds = 0 ∧
    (run IMAGE_FILES (lossTrace ++ [Event.click 2, Event.tick 1]) scriptStart).timerSeconds
      = -1 ∧
    (run IMAGE_FILES (lossTrace ++ [Event.click 2, Event.tick 1]) scriptStart).timerText
      = "-1:-1" :=
  ⟨reachable_run IMAGE_FILES _ _ (Reachable.init "" true keepDraws), by decide, by decide,
   by decide⟩

set_option maxRecDepth 100000 in
/-- C7, at the failing input: in a session of the script the first flip starts the
countdown with interval `0`; after the 120 ticks that end the game as a loss the timer is
stopped; the next flip of the same session starts it again, with a second interval `1`. -/
theorem timer_restarted_after_loss :
    scriptStart.timerRunning = false ∧
    (step IMAGE_FILES (Event.click 0) scriptStart).timerRunning = true ∧
    (step IMAGE_FILES (Event.click 0) scriptStart).liveIntervals = [0] ∧
    (run IMAGE_FILES lossTrace scriptStart).timerRunning = false ∧
    (run IMAGE_FILES lossTrace scriptStart).liveIntervals = [] ∧
    (run IMAGE_FILES (lossTrace ++ [Event.click 2]) scriptStart).timerRunning = true ∧
    (run IMAGE_FILES (lossTrace ++ [Event.click 2]) scriptStart).timerInterval = some 1 ∧
    (run IMAGE_FILES (lossTrace ++ [Event.click 2]) scriptStart).liveIntervals = [1] :=
  ⟨by decide, by decide, by decide, by decide, by decide, by decide, by decide, by decide⟩


/-! ## The selection in the reachable states -/

/-- C11: in every state reachable from the initial reset by clicks, ticks, deferred
callbacks and resets, `flipped` has 0, 1 or 2 entries, every entry is an index of the
deck, and no index occurs twice. -/
theorem flipped_at_most_two (images : List String) (g : Game)
    (hreach : Reachable images g) :
    (g.flipped.length = 0 ∨ g.flipped.length = 1 ∨ g.flipped.length = 2) ∧
    (∀ i ∈ g.flipped, i < g.deck.length) ∧
    g.flipped.Nodup := by
  have hinv := reachable_inv images g hreach
  refine ⟨?_, ?_, hinv.flipped_nodup⟩
  · have := hinv.flipped_length
    omega
  · intro i hi
    obtain ⟨c, hc, _⟩ := hinv.flipped_unmatched i hi
    exact (List.getElem?_eq_some_iff.mp hc).1

/-- C11 on the deck `[A, B, A, B]` with cards 0 and 1 selected. -/
theorem flipped_at_most_two_witness :
    (step twoImages (Event.click 1) (step twoImages (Event.click 0) freshABAB)).flipped = [0, 1] ∧
    (∀ i ∈ (step twoImages (Event.click 1) (step twoImages (Event.click 0) freshABAB)).flipped,
      i < (step twoImages (Event.click 1) (step twoImages (Event.click 0) freshABAB)).deck.length) ∧
    (step twoImages (Event.click 1) (step twoImages (Event.click 0) freshABAB)).flipped.Nodup :=
  ⟨by decide,
   (flipped_at_most_two twoImages _
     (Reachable.step (Event.click 1)
       (Reachable.step (Event.click 0) (Reachable.init "" true interleaveDraws)))).2⟩

/-- C12: in every state reachable from the initial reset by clicks, ticks, deferred
callbacks and resets, also when a callback scheduled before a reset runs after it, every
index in `flipped` is the index of a card whose `matched` flag is false. -/
theorem flipped_never_matched (images : List String) (g : Game)
    (hreach : Reachable images g) :
    ∀ i ∈ g.flipped, ∃ c, g.deck[i]? = some c ∧ c.matched = false :=
  (reachable_inv images g hreach).flipped_unmatched

/-- C12 on the deck `[A, B, A, B]`: a mismatch callback is left pending across a restart
and runs after the first flip of the new session; the card selected next is unmatched. -/
theorem flipped_never_matched_witness :
    (run twoImages [Event.click 0, Event.click 1, Event.reset interleaveDraws, Event.click 0,
      Event.fire 0, Event.click 2] freshABAB).flipped = [2] ∧
    (∀ i ∈ (run twoImages [Event.click 0, Event.click 1, Event.reset interleaveDraws,
        Event.click 0, Event.fire 0, Event.click 2] freshABAB).flipped,
      ∃ c, (run twoImages [Event.click 0, Event.click 1, Event.reset interleaveDraws,
        Event.click 0, Event.fire 0, Event.click 2] freshABAB).deck[i]? = some c ∧
        c.matched = false) :=
  ⟨by decide,
   flipped_never_matched twoImages _
     (reachable_run twoImages _ _ (Reachable.init "" true interleaveDraws))⟩


/-! ## The move counter -/

theorem checkMatch_counts (images : List String) (g : Game) :
    (checkMatch images g).moves = g.moves ∧
    g.matchedCount ≤ (checkMatch images g).matchedCount ∧
    (checkMatch images g).matchedCount ≤ g.matchedCount + 1 := by
  unfold checkMatch
  split
  · split
    · split
      · dsimp only
        split <;> simp
      · simp
    · simp
  · simp

/-- A click changes `moves` only when it is the accepted second click of a pair; it
then adds one and `matchedCount` grows by at most one. -/
theorem onCardClick_counts (images : List String) (idx : Nat) (g : Game) :
    ((onCardClick images idx g).moves = g.moves ∧
      (onCardClick images idx g).matchedCount = g.matchedCount) ∨
    (g.flipped.length = 1 ∧ (onCardClick images idx g).moves = g.moves + 1 ∧
      (onCardClick images idx g).matchedCount ≤ g.matchedCount + 1) := by
  unfold onCardClick
  split
  · exact Or.inl ⟨rfl, rfl⟩
  · split
    · exact Or.inl ⟨rfl, rfl⟩
    · split
      · exact Or.inl ⟨rfl, rfl⟩
      · split
        · exact Or.inl ⟨rfl, rfl⟩
        · dsimp only
          by_cases hlen : g.flipped.length = 1
          · right
            refine ⟨hlen, ?_⟩
            cases g.timerRunning <;> simp [hlen] <;>
              exact ⟨by rw [(checkMatch_counts images _).1],
                     (checkMatch_counts images _).2.2⟩
          · left
            cases g.timerRunning <;> simp [hlen]

@[simp] theorem timerTick_moves (g : Game) : (timerTick g).moves = g.moves :=
  (timerTick_fields g).2.2.2.1

@[simp] theorem runDeferred_moves (d : Deferred) (g : Game) :
    (runDeferred d g).moves = g.moves := by
  cases d <;> simp [runDeferred]

@[simp] theorem runDeferred_matchedCount (d : Deferred) (g : Game) :
    (runDeferred d g).matchedCount = g.matchedCount := by
  cases d <;> simp [runDeferred]

theorem step_counts (images : List String) (e : Event) (g : Game)
    (hle : g.matchedCount ≤ g.moves) :
    (step images e g).matchedCount ≤ (step images e g).moves := by
  cases e with
  | click idx =>
    simp only [step]
    split
    · rcases onCardClick_counts images idx g with ⟨h1, h2⟩ | ⟨_, h1, h2⟩
      · rw [h1, h2]; exact hle
      · rw [h1]; omega
    · exact hle
  | tick h =>
    simp only [step]
    split
    · rw [timerTick_moves, (timerTick_fields g).2.2.1]; exact hle
    · exact hle
  | fire k =>
    simp only [step]
    split
    · exact hle
    · simpa using hle
  | reset draws =>
    obtain ⟨_, _, _, hm, hmv, _⟩ := resetGame_fields images draws g
    simp only [step]
    rw [hm, hmv]

theorem reachable_counts (images : List String) (g : Game) (hreach : Reachable images g) :
    g.matchedCount ≤ g.moves := by
  induction hreach with
  | init messageText messageHidden draws =>
    obtain ⟨_, _, _, hm, hmv, _⟩ := resetGame_fields images draws (boot messageText messageHidden)
    rw [hm, hmv]
  | step e _ ih => exact step_counts images e _ ih

/-- C16: `moves` counts the evaluated pairs. An accepted click on the first card of a
pair leaves `moves` as it was; an accepted click on a second, distinct, unmatched card
hands `checkMatch` a state whose `moves` is one higher, and `checkMatch` returns it with
that count whether the pair matches or not. A click made while the selection does not
hold exactly one card, a tick and a deferred callback leave `moves` as it was. In every
reachable state `matchedCount ≤ moves`. -/
theorem moves_count_pairs (images : List String) :
    (∀ (g : Game) (idx : Nat) (card : Card), g.flipped = [] → g.deck[idx]? = some card →
      card.matched = false →
      (onCardClick images idx g).flipped = [idx] ∧
      (onCardClick images idx g).moves = g.moves) ∧
    (∀ (g : Game) (a b : Nat) (cb : Card), g.flipped = [a] → g.deck[b]? = some cb →
      b ≠ a → cb.matched = false →
      onCardClick images b g = checkMatch images (secondSelected a b g) ∧
      (secondSelected a b g).moves = g.moves + 1 ∧
      (onCardClick images b g).moves = g.moves + 1) ∧
    (∀ s : Game, (checkMatch images s).moves = s.moves) ∧
    (∀ (g : Game) (idx : Nat), g.flipped.length ≠ 1 →
      (onCardClick images idx g).moves = g.moves) ∧
    (∀ (g : Game) (h : Nat), (step images (Event.tick h) g).moves = g.moves) ∧
    (∀ (g : Game) (k : Nat), (step images (Event.fire k) g).moves = g.moves) ∧
    (∀ g : Game, Reachable images g → g.matchedCount ≤ g.moves) := by
  refine ⟨?_, ?_, fun s => (checkMatch_counts images s).1, ?_, ?_, ?_,
    fun g hreach => reachable_counts images g hreach⟩
  · intro g idx card hsel hcard hun
    rw [onCardClick_first images g idx card hsel hcard hun]
    obtain ⟨_, hf, _, hmv, _⟩ := firstSelected_frame idx g
    exact ⟨hf, hmv⟩
  · intro g a b cb hsel hb hab hun
    have hclick := onCardClick_second images g a b cb hsel hb hab hun
    obtain ⟨_, _, _, hmv, _⟩ := secondSelected_frame a b g
    exact ⟨hclick, hmv, by rw [hclick, (checkMatch_counts images _).1, hmv]⟩
  · intro g idx hlen
    rcases onCardClick_counts images idx g with ⟨h1, _⟩ | ⟨h1, _⟩
    · exact h1
    · exact absurd h1 hlen
  · intro g h
    simp only [step]
    split <;> simp
  · intro g k
    simp only [step]
    split <;> simp

/-- C16 on the deck `[A, B, A, B]`: the mismatch of cards 0 and 1 and then the match of
cards 0 and 2 make two moves and one matched pair. -/
theorem moves_count_pairs_witness :
    (run twoImages [Event.click 0, Event.click 1, Event.fire 0, Event.click 0, Event.click 2]
      freshABAB).moves = 2 ∧
    (run twoImages [Event.click 0, Event.click 1, Event.fire 0, Event.click 0, Event.click 2]
      freshABAB).matchedCount = 1 ∧
    (run twoImages [Event.click 0, Event.click 1, Event.fire 0, Event.click 0, Event.click 2]
      freshABAB).matchedCount ≤
    (run twoImages [Event.click 0, Event.click 1, Event.fire 0, Event.click 0, Event.click 2]
      freshABAB).moves :=
  ⟨by decide, by decide,
   (moves_count_pairs twoImages).2.2.2.2.2.2 _
     (reachable_run twoImages _ _ (Reachable.init "" true interleaveDraws))⟩


/-! ## The countdown display -/

set_option maxRecDepth 100000 in
/-- A number below 100, written in decimal and padded to two characters, is its tens
digit followed by its units digit. -/
theorem padStart_two_digits :
    ∀ k < 100, padStart 2 '0' (toString (Int.ofNat k))
      = String.mk [Nat.digitChar (k / 10), Nat.digitChar (k % 10)] := by
  decide

theorem updateTimerDisplay_text (g : Game) (n : Nat) (hs : g.timerSeconds = Int.ofNat n)
    (hn : n < 6000) :
    (updateTimerDisplay g).timerText =
      String.mk [Nat.digitChar (n / 60 / 10), Nat.digitChar (n / 60 % 10), ':',
                 Nat.digitChar (n % 60 / 10), Nat.digitChar (n % 60 % 10)] := by
  have hm : n / 60 < 100 := by omega
  have hsec : n % 60 < 100 := by omega
  have hdiv : Int.fdiv (Int.ofNat n) 60 = Int.ofNat (n / 60) := (Int.ofNat_fdiv n 60).symm
  have hmod : Int.tmod (Int.ofNat n) 60 = Int.ofNat (n % 60) := (Int.ofNat_tmod n 60).symm
  simp only [updateTimerDisplay, hs, hdiv, hmod, padStart_two_digits _ hm,
    padStart_two_digits _ hsec]
  rfl

/-- C17: for `0 ≤ timerSeconds < 6000`, in particular for the values `0 .. 120` of a
countdown, `updateTimerDisplay` writes five characters: the two decimal digits of the
minutes `floor(timerSeconds / 60)`, a colon, and the two decimal digits of the seconds
`timerSeconds mod 60`, which are below 60; minutes times 60 plus seconds is
`timerSeconds`. A freshly reset session shows `02:00`. -/
theorem timer_display_format :
    (∀ g : Game, 0 ≤ g.timerSeconds → g.timerSeconds < 6000 →
      (updateTimerDisplay g).timerText =
        String.mk [Nat.digitChar ((g.timerSeconds / 60).toNat / 10),
                   Nat.digitChar ((g.timerSeconds / 60).toNat % 10), ':',
                   Nat.digitChar ((g.timerSeconds % 60).toNat / 10),
                   Nat.digitChar ((g.timerSeconds % 60).toNat % 10)] ∧
      (updateTimerDisplay g).timerText.length = 5 ∧
      (g.timerSeconds / 60).toNat < 100 ∧
      (g.timerSeconds % 60).toNat < 60 ∧
      ((g.timerSeconds / 60).toNat : Int) * 60 + ((g.timerSeconds % 60).toNat : Int)
        = g.timerSeconds) ∧
    (∀ (images : List String) (draws : Draws) (g : Game),
      (resetGame images draws g).timerText = "02:00") := by
  constructor
  · intro g hlo hhi
    obtain ⟨n, hn⟩ := Int.eq_ofNat_of_zero_le hlo
    have hn' : g.timerSeconds = Int.ofNat n := hn
    have hlt : n < 6000 := by omega
    have hq : (g.timerSeconds / 60).toNat = n / 60 := by
      rw [hn]; norm_cast
    have hr : (g.timerSeconds % 60).toNat = n % 60 := by
      rw [hn]; norm_cast
    rw [hq, hr, updateTimerDisplay_text g n hn' hlt]
    refine ⟨rfl, rfl, by omega, by omega, ?_⟩
    rw [hn]
    have := Nat.div_add_mod n 60
    push_cast
    omega
  · intro images draws g
    simp only [resetGame, renderBoard, updateTimerDisplay]
    decide


/-! ## Restart -/

/-- C13, as amended: for every reachable state (mid-game, won or lost) and all draws,
`resetGame` returns the state below: score, moves and `matchedCount` 0, 120 seconds shown
as `02:00`, the timer stopped with no live interval, an empty selection, the freshly
built deck of `2 * UNIQUE_PAIRS` unmatched cards, one face-down element per card, and the
message hidden. Of the state before the reset only the pending callbacks, the text of the
hidden message element and the next interval handle remain. -/
theorem resetGame_result (images : List String) (draws : Draws) (g : Game)
    (hreach : Reachable images g) :
    resetGame images draws g =
      { deck := createDeck images draws,
        flipped := [],
        matchedCount := 0,
        moves := 0,
        score := 0,
        timerSeconds := 120,
        timerInterval := none,
        timerRunning := false,
        liveIntervals := [],
        nextHandle := g.nextHandle,
        pending := g.pending,
        board := (createDeck images draws).map
          (fun card => { img := card.src, flipped := false, matched := false }),
        scoreText := "0",
        movesText := "0",
        timerText := "02:00",
        messageText := g.messageText,
        messageHidden := true } ∧
    (resetGame images draws g).deck.length = 2 * UNIQUE_PAIRS images ∧
    (∀ c ∈ (resetGame images draws g).deck, c.matched = false) ∧
    (resetGame images draws g).board.length = (resetGame images draws g).deck.length ∧
    (∀ el ∈ (resetGame images draws g).board, el.flipped = false ∧ el.matched = false) := by
  have hlive := clearInterval_own g g (reachable_inv images g hreach).timer rfl
  obtain ⟨hd, hb, _⟩ := resetGame_fields images draws g
  refine ⟨?_, ?_, ?_, ?_, ?_⟩
  · simp only [resetGame, renderBoard, updateTimerDisplay]
    rw [Game.mk.injEq]
    simp [hlive]
    decide
  · rw [hd]; exact createDeck_length images draws
  · rw [hd]; exact createDeck_unmatched images draws
  · rw [hb, hd, List.length_map]
  · rw [hb]
    intro el hel
    rcases List.mem_map.mp hel with ⟨c, _, rfl⟩
    exact ⟨rfl, rfl⟩

set_option maxRecDepth 100000 in
/-- C13, as stated, fails: two reachable states of the script with the same (empty) list
of pending callbacks, both after a lost game whose message has been hidden again, one
lost without a move and one lost after one move, are reset with the same draws to
different states; the message element keeps the text of the game before. -/
theorem resetGame_keeps_message_text :
    Reachable IMAGE_FILES (run IMAGE_FILES (lossTrace ++ [Event.fire 0]) scriptStart) ∧
    Reachable IMAGE_FILES (run IMAGE_FILES
      ([Event.click 0, Event.click 2, Event.fire 0] ++ List.replicate 120 (Event.tick 0)
        ++ [Event.fire 0]) scriptStart) ∧
    (run IMAGE_FILES (lossTrace ++ [Event.fire 0]) scriptStart).pending
      = (run IMAGE_FILES
          ([Event.click 0, Event.click 2, Event.fire 0] ++ List.replicate 120 (Event.tick 0)
            ++ [Event.fire 0]) scriptStart).pending ∧
    (resetGame IMAGE_FILES keepDraws
      (run IMAGE_FILES (lossTrace ++ [Event.fire 0]) scriptStart)).messageText
      = "Time's up! Score: 0, Moves: 0" ∧
    (resetGame IMAGE_FILES keepDraws
      (run IMAGE_FILES
        ([Event.click 0, Event.click 2, Event.fire 0] ++ List.replicate 120 (Event.tick 0)
          ++ [Event.fire 0]) scriptStart)).messageText
      = "Time's up! Score: 0, Moves: 1" ∧
    resetGame IMAGE_FILES keepDraws
        (run IMAGE_FILES (lossTrace ++ [Event.fire 0]) scriptStart) ≠
      resetGame IMAGE_FILES keepDraws
        (run IMAGE_FILES
          ([Event.click 0, Event.click 2, Event.fire 0] ++ List.replicate 120 (Event.tick 0)
            ++ [Event.fire 0]) scriptStart) :=
  ⟨reachable_run IMAGE_FILES _ _ (Reachable.init "" true keepDraws),
   reachable_run IMAGE_FILES _ _ (Reachable.init "" true keepDraws),
   by decide, by decide, by decide,
   fun h => absurd (congrArg Game.messageText h) (by decide)⟩

/-- C13 as amended, on a lost game of the script: the restart yields the fresh state. -/
theorem resetGame_result_witness :
    (resetGame IMAGE_FILES keepDraws (run IMAGE_FILES lossTrace scriptStart)).timerSeconds = 120 ∧
    (resetGame IMAGE_FILES keepDraws (run IMAGE_FILES lossTrace scriptStart)).liveIntervals = [] ∧
    (resetGame IMAGE_FILES keepDraws (run IMAGE_FILES lossTrace scriptStart)).deck.length
      = 2 * UNIQUE_PAIRS IMAGE_FILES ∧
    (∀ c ∈ (resetGame IMAGE_FILES keepDraws (run IMAGE_FILES lossTrace scriptStart)).deck,
      c.matched = false) :=
  have h := resetGame_result IMAGE_FILES keepDraws (run IMAGE_FILES lossTrace scriptStart)
    (reachable_run IMAGE_FILES _ _ (Reachable.init "" true keepDraws))
  ⟨congrArg Game.timerSeconds h.1, congrArg Game.liveIntervals h.1, h.2.1, h.2.2.1⟩

set_option maxRecDepth 100000 in
/-- C17 on the deck `[A, B, A, B]`, 45 ticks after the first flip: with 75 seconds left
the display reads `01:15`. -/
theorem timer_display_format_witness :
    (run twoImages (Event.click 0 :: List.replicate 45 (Event.tick 0)) freshABAB).timerSeconds
      = 75 ∧
    (updateTimerDisplay
      (run twoImages (Event.click 0 :: List.replicate 45 (Event.tick 0)) freshABAB)).timerText
      = "01:15" ∧
    (run twoImages (Event.click 0 :: List.replicate 45 (Event.tick 0)) freshABAB).timerText
      = "01:15" :=
  ⟨by decide,
   (timer_display_format.1
     (run twoImages (Event.click 0 :: List.replicate 45 (Event.tick 0)) freshABAB)
     (by decide) (by decide)).1.trans (by decide),
   by decide⟩

/-! ## Matched cards come in pairs -/

theorem map_src_setMatched (deck : List Card) (i : Nat) :
    (setMatched deck i).map Card.src = deck.map Card.src := by
  apply List.ext_getElem?
  intro k
  rw [List.getElem?_map, List.getElem?_map, getElem?_setMatched]
  split
  · cases deck[k]? <;> rfl
  · rfl

theorem countP_key_split (k : String) : ∀ deck : List Card,
    deck.countP (fun c => decide (c.src = k)) =
      deck.countP (fun c => decide (c.src = k) && c.matched) +
      deck.countP (fun c => decide (c.src = k) && !c.matched)
  | [] => rfl
  | c :: rest => by
    have ih := countP_key_split k rest
    simp only [List.countP_cons, ih]
    by_cases hk : c.src = k <;> cases hm : c.matched <;> simp [hk] <;> omega

theorem countP_key_setMatched (k : String) (deck : List Card) (i : Nat) (c : Card)
    (hc : deck[i]? = some c) (hun : c.matched = false) :
    (setMatched deck i).countP (fun c => decide (c.src = k) && c.matched) =
      deck.countP (fun c => decide (c.src = k) && c.matched) + (if c.src = k then 1 else 0) := by
  obtain ⟨hi, hget⟩ := List.getElem?_eq_some_iff.mp hc
  unfold setMatched
  rw [hc]
  simp only
  rw [List.countP_set _ _ _ _ hi, hget]
  simp [hun]

theorem countP_key_eq_count (k : String) (deck : List Card) :
    deck.countP (fun c => decide (c.src = k)) = List.count k (deck.map Card.src) := by
  rw [List.count, List.countP_map]
  apply List.countP_congr
  intro c _
  simp [Function.comp]

theorem countP_key_le_two (images : List String) (hdistinct : images.Nodup) (g : Game)
    (hsrc : (g.deck.map Card.src).Perm ((pickImages images).flatMap (fun src => [src, src])))
    (k : String) : g.deck.countP (fun c => decide (c.src = k)) ≤ 2 := by
  rw [countP_key_eq_count, hsrc.count_eq, count_doubled]
  have hnd : (pickImages images).Nodup := hdistinct.sublist (List.take_sublist _ _)
  have := List.nodup_iff_count_le_one.mp hnd k
  omega

theorem pairsOK_resetGame (images : List String) (draws : Draws) (g : Game) :
    PairsOK images (resetGame images draws g) := by
  obtain ⟨hd, _⟩ := resetGame_fields images draws g
  refine ⟨by rw [hd]; exact createDeck_srcs images draws, fun k => Or.inl ?_⟩
  rw [hd, List.countP_eq_zero]
  intro c hc
  simp [createDeck_unmatched images draws c hc]

theorem pairsOK_of_deck (images : List String) (g g2 : Game) (hok : PairsOK images g)
    (hdeck : g2.deck = g.deck) : PairsOK images g2 := by
  unfold PairsOK
  rw [hdeck]
  exact hok

theorem pairsOK_match (images : List String) (hdistinct : images.Nodup) (g g2 : Game)
    (a b : Nat) (ca cb : Card) (hok : PairsOK images g)
    (ha : g.deck[a]? = some ca) (hb : g.deck[b]? = some cb) (hab : b ≠ a)
    (huna : ca.matched = false) (hunb : cb.matched = false) (hsame : ca.src = cb.src)
    (hdeck : g2.deck = setMatched (setMatched g.deck a) b) : PairsOK images g2 := by
  have hb3 : (setMatched g.deck a)[b]? = some cb := by
    rw [getElem?_setMatched, if_neg hab, hb]
  refine ⟨?_, fun k => ?_⟩
  · rw [hdeck, map_src_setMatched, map_src_setMatched]; exact hok.1
  · rw [hdeck, countP_key_setMatched k _ b cb hb3 hunb, countP_key_setMatched k _ a ca ha huna]
    by_cases hk : ca.src = k
    · have hk2 : cb.src = k := by rw [← hsame]; exact hk
      have hle := countP_key_le_two images hdistinct g hok.1 k
      rw [countP_key_split k g.deck] at hle
      have hpos : 0 < g.deck.countP (fun c => decide (c.src = k) && !c.matched) := by
        rw [List.countP_pos_iff]
        exact ⟨ca, List.getElem?_mem ha, by simp [hk, huna]⟩
      rcases hok.2 k with h0 | h2
      · right; rw [h0]; simp [hk, hk2]
      · omega
    · have hk2 : ¬ cb.src = k := by rw [← hsame]; exact hk
      simpa [hk, hk2] using hok.2 k

@[simp] theorem runDeferred_deck (d : Deferred) (g : Game) :
    (runDeferred d g).deck = g.deck := by
  cases d <;> simp [runDeferred]

theorem pairsOK_onCardClick (images : List String) (hdistinct : images.Nodup) (idx : Nat)
    (g : Game) (hinv : Inv images g) (hok : PairsOK images g) :
    PairsOK images (onCardClick images idx g) := by
  cases hcard : g.deck[idx]? with
  | none => simpa [onCardClick, hcard] using hok
  | some card =>
    by_cases hm : card.matched = true
    · rw [onCardClick_skip images g idx card hcard (Or.inl hm)]; exact hok
    · have hun : card.matched = false := by simpa using hm
      by_cases hmem : idx ∈ g.flipped
      · rw [onCardClick_skip images g idx card hcard (Or.inr hmem)]; exact hok
      · match hfl : g.flipped with
        | [] =>
          rw [onCardClick_first images g idx card hfl hcard hun]
          exact pairsOK_of_deck images g _ hok (firstSelected_frame idx g).1
        | [a] =>
          have hne : idx ≠ a := by
            intro h
            apply hmem
            rw [hfl, h]
            exact List.mem_singleton_self a
          obtain ⟨ca, hca, huna⟩ :=
            hinv.flipped_unmatched a (by rw [hfl]; exact List.mem_singleton_self a)
          obtain ⟨hd, hf, _⟩ := secondSelected_frame a idx g
          have ha2 : (secondSelected a idx g).deck[a]? = some ca := by rw [hd]; exact hca
          have hb2 : (secondSelected a idx g).deck[idx]? = some card := by rw [hd]; exact hcard
          rw [onCardClick_second images g a idx card hfl hcard hne hun]
          by_cases hsame : ca.src = card.src
          · obtain ⟨kd, _⟩ :=
              checkMatch_match images (secondSelected a idx g) a idx ca card hf ha2 hb2 hsame
            exact pairsOK_match images hdistinct g _ a idx ca card hok hca hcard hne huna hun
              hsame (by rw [kd, hd])
          · rw [checkMatch_mismatch images (secondSelected a idx g) a idx ca card hf ha2 hb2
              hsame]
            exact pairsOK_of_deck images g _ hok hd
        | a :: b :: rest =>
          have hlen := hinv.flipped_length
          rw [hfl] at hlen
          have hrest : rest = [] := by
            cases rest with
            | nil => rfl
            | cons x xs => simp at hlen
          rw [onCardClick_locked images idx g (by rw [hfl, hrest]; rfl)]
          exact hok

theorem pairsOK_step (images : List String) (hdistinct : images.Nodup) (e : Event) (g : Game)
    (hinv : Inv images g) (hok : PairsOK images g) : PairsOK images (step images e g) := by
  cases e with
  | click idx =>
    simp only [step]
    split
    · exact pairsOK_onCardClick images hdistinct idx g hinv hok
    · exact hok
  | tick h =>
    simp only [step]
    split
    · exact pairsOK_of_deck images g _ hok (timerTick_fields g).1
    · exact hok
  | fire k =>
    simp only [step]
    split
    · exact hok
    · exact pairsOK_of_deck images g _ hok (by simp)
  | reset draws => exact pairsOK_resetGame images draws g

theorem reachable_pairsOK (images : List String) (hdistinct : images.Nodup) (g : Game)
    (hreach : Reachable images g) : PairsOK images g := by
  induction hreach with
  | init messageText messageHidden draws => exact pairsOK_resetGame images draws _
  | step e hprev ih =>
    exact pairsOK_step images hdistinct e _ (reachable_inv images _ hprev) ih

theorem won_iff_all_matched (images : List String) (g : Game) (hinv : Inv images g) :
    g.matchedCount = UNIQUE_PAIRS images ↔ ∀ c ∈ g.deck, c.matched = true := by
  rw [← List.countP_eq_length, hinv.matched_pairs, hinv.deck_length]
  omega

theorem onCardClick_all_matched (images : List String) (idx : Nat) (g : Game)
    (hall : ∀ c ∈ g.deck, c.matched = true) : onCardClick images idx g = g := by
  cases hcard : g.deck[idx]? with
  | none => simp [onCardClick, hcard]
  | some card =>
    exact onCardClick_skip images g idx card hcard
      (Or.inl (hall card (List.getElem?_mem hcard)))

theorem step_all_matched (images : List String) (e : Event) (g : Game)
    (hall : ∀ c ∈ g.deck, c.matched = true) (hno : e.isReset = false) :
    (step images e g).deck = g.deck := by
  cases e with
  | click idx =>
    simp only [step]
    split
    · rw [onCardClick_all_matched images idx g hall]
    · rfl
  | tick h =>
    simp only [step]
    split
    · exact (timerTick_fields g).1
    · rfl
  | fire k =>
    simp only [step]
    split
    · rfl
    · simp
  | reset draws => simp [Event.isReset] at hno

theorem run_all_matched (images : List String) :
    ∀ (es : List Event) (g : Game), (∀ c ∈ g.deck, c.matched = true) →
      (∀ e ∈ es, e.isReset = false) → (run images es g).deck = g.deck
  | [], _, _, _ => rfl
  | e :: es, g, hall, hno => by
    have hstep := step_all_matched images e g hall (hno e (List.mem_cons_self e es))
    simp only [run]
    rw [run_all_matched images es (step images e g) (by rw [hstep]; exact hall)
      (fun x hx => hno x (List.mem_cons_of_mem e hx)), hstep]

/-- The state after `checkMatch` found a match that is not the last one. -/
theorem checkMatch_no_win (images : List String) (g : Game) (a b : Nat) (ca cb : Card)
    (hsel : g.flipped = [a, b]) (ha : g.deck[a]? = some ca) (hb : g.deck[b]? = some cb)
    (hsame : ca.src = cb.src) (hmore : g.matchedCount + 1 ≠ UNIQUE_PAIRS images) :
    checkMatch images g =
      { g with deck := setMatched (setMatched g.deck a) b,
               matchedCount := g.matchedCount + 1,
               score := g.score + 10,
               scoreText := toString (g.score + 10),
               flipped := [],
               pending := g.pending ++ [Deferred.markMatched a b] } := by
  unfold checkMatch
  simp only [hsel, ha, hb, hsame, hmore, if_true, if_false]

theorem match_click_pending (images : List String) (g : Game) (a b : Nat) (ca cb : Card)
    (hsel : g.flipped = [a]) (ha : g.deck[a]? = some ca) (hb : g.deck[b]? = some cb)
    (hab : b ≠ a) (hun : cb.matched = false) (hsame : ca.src = cb.src) :
    (onCardClick images b g).matchedCount = UNIQUE_PAIRS images ↔
      (onCardClick images b g).pending =
        g.pending ++ [Deferred.markMatched a b, Deferred.hideMessage] := by
  obtain ⟨hd, hf, hm, _, _, _, hp, _⟩ := secondSelected_frame a b g
  have ha2 : (secondSelected a b g).deck[a]? = some ca := by rw [hd]; exact ha
  have hb2 : (secondSelected a b g).deck[b]? = some cb := by rw [hd]; exact hb
  rw [onCardClick_second images g a b cb hsel hb hab hun]
  by_cases hlast : (secondSelected a b g).matchedCount + 1 = UNIQUE_PAIRS images
  · rw [checkMatch_win images _ a b ca cb hf ha2 hb2 hsame hlast]
    simp [endGame, showMessage, hp, hlast]
  · rw [checkMatch_no_win images _ a b ca cb hf ha2 hb2 hsame hlast]
    simp [hp, hlast]

/-- C18: for pairwise distinct images, in every state reachable from the initial reset
the number of matched cards is `2 * matchedCount`; every card shows one of the picked
images, each picked image is on exactly two cards, and of these two none or both are
matched. `matchedCount = UNIQUE_PAIRS` holds exactly when every card of the deck is
matched, so a matching click takes the win branch (it calls `endGame(true)`, which
schedules the hiding of the message) exactly when it leaves every card matched. Once
all cards are matched, every click is ignored in every state that follows without a
restart. -/
theorem matched_in_pairs (images : List String) (hdistinct : images.Nodup) (g : Game)
    (hreach : Reachable images g) :
    g.deck.countP (fun c => c.matched) = 2 * g.matchedCount ∧
    (∀ c ∈ g.deck, c.src ∈ pickImages images) ∧
    (∀ k ∈ pickImages images,
      g.deck.countP (fun c => decide (c.src = k)) = 2 ∧
      (g.deck.countP (fun c => decide (c.src = k) && c.matched) = 0 ∨
       g.deck.countP (fun c => decide (c.src = k) && c.matched) = 2)) ∧
    (g.matchedCount = UNIQUE_PAIRS images ↔ ∀ c ∈ g.deck, c.matched = true) ∧
    (∀ (a b : Nat) (ca cb : Card), g.flipped = [a] → g.deck[a]? = some ca →
      g.deck[b]? = some cb → b ≠ a → cb.matched = false → ca.src = cb.src →
      ((∀ c ∈ (onCardClick images b g).deck, c.matched = true) ↔
        (onCardClick images b g).pending =
          g.pending ++ [Deferred.markMatched a b, Deferred.hideMessage])) ∧
    (g.matchedCount = UNIQUE_PAIRS images →
      ∀ es : List Event, (∀ e ∈ es, e.isReset = false) →
        ∀ idx : Nat, onCardClick images idx (run images es g) = run images es g) := by
  have hinv := reachable_inv images g hreach
  have hok := reachable_pairsOK images hdistinct g hreach
  refine ⟨hinv.matched_pairs, ?_, ?_, won_iff_all_matched images g hinv, ?_, ?_⟩
  · intro c hc
    have hmem : c.src ∈ g.deck.map Card.src := List.mem_map_of_mem _ hc
    have := hok.1.mem_iff.mp hmem
    simp only [List.mem_flatMap] at this
    rcases this with ⟨s, hs, hcs⟩
    simp at hcs
    rw [hcs]
    exact hs
  · intro k hk
    refine ⟨?_, hok.2 k⟩
    rw [countP_key_eq_count, hok.1.count_eq, count_doubled]
    have hnd : (pickImages images).Nodup := hdistinct.sublist (List.take_sublist _ _)
    have : List.count k (pickImages images) = 1 := List.count_eq_one_of_mem hnd hk
    omega
  · intro a b ca cb hsel ha hb hab hun hsame
    rw [← won_iff_all_matched images _ (inv_onCardClick images b g hinv)]
    exact match_click_pending images g a b ca cb hsel ha hb hab hun hsame
  · intro hwon es hno idx
    have hall := (won_iff_all_matched images g hinv).mp hwon
    apply onCardClick_all_matched
    rw [run_all_matched images es g hall hno]
    exact hall

/-- C18 on the deck `[A, B, A, B]`, after the `A` pair was matched: two matched cards, both
with key `A`, and the game is not won. -/
theorem matched_in_pairs_witness :
    (run twoImages [Event.click 0, Event.click 2] freshABAB).matchedCount = 1 ∧
    (run twoImages [Event.click 0, Event.click 2] freshABAB).deck.countP (fun c => c.matched)
      = 2 * (run twoImages [Event.click 0, Event.click 2] freshABAB).matchedCount ∧
    (∀ k ∈ pickImages twoImages,
      (run twoImages [Event.click 0, Event.click 2] freshABAB).deck.countP
        (fun c => decide (c.src = k)) = 2 ∧
      ((run twoImages [Event.click 0, Event.click 2] freshABAB).deck.countP
        (fun c => decide (c.src = k) && c.matched) = 0 ∨
       (run twoImages [Event.click 0, Event.click 2] freshABAB).deck.countP
        (fun c => decide (c.src = k) && c.matched) = 2)) :=
  have h := matched_in_pairs twoImages (by decide)
    (run twoImages [Event.click 0, Event.click 2] freshABAB)
    (reachable_run twoImages _ _ (Reachable.init "" true interleaveDraws))
  ⟨by decide, h.1, h.2.2.1⟩

/-! ## The selection lock -/

theorem reachable_of_settled (images : List String) (g : Game)
    (hreach : ReachableSettled images g) : Reachable images g := by
  induction hreach with
  | init messageText messageHidden draws => exact Reachable.init messageText messageHidden draws
  | step e _ _ ih => exact Reachable.step e ih

theorem unflips_append (p q : List Deferred) : unflips (p ++ q) = unflips p ++ unflips q := by
  simp [unflips]

theorem unflips_markMatched (a b : Nat) : unflips [Deferred.markMatched a b] = [] := rfl

theorem unflips_hideMessage : unflips [Deferred.hideMessage] = [] := rfl

theorem unflips_markMatched_hideMessage (a b : Nat) :
    unflips [Deferred.markMatched a b, Deferred.hideMessage] = [] := rfl

theorem unflips_unflipPair (a b : Nat) :
    unflips [Deferred.unflipPair a b] = [Deferred.unflipPair a b] := rfl

theorem filter_eraseIdx_of_false {α : Type} (p : α → Bool) :
    ∀ (l : List α) (k : Nat) (d : α), l[k]? = some d → p d = false →
      (l.eraseIdx k).filter p = l.filter p
  | [], _, _, h, _ => by simp at h
  | x :: t, 0, d, h, hp => by
    simp at h
    subst h
    simp [List.filter_cons, hp]
  | x :: t, k + 1, d, h, hp => by
    simp at h
    simp [List.filter_cons, filter_eraseIdx_of_false p t k d h hp]

theorem filter_eraseIdx_of_true {α : Type} (p : α → Bool) :
    ∀ (l : List α) (k : Nat) (d : α), l[k]? = some d → p d = true →
      ((l.eraseIdx k).filter p).length + 1 = (l.filter p).length
  | [], _, _, h, _ => by simp at h
  | x :: t, 0, d, h, hp => by
    simp at h
    subst h
    simp [List.filter_cons, hp]
  | x :: t, k + 1, d, h, hp => by
    simp at h
    have ih := filter_eraseIdx_of_true p t k d h hp
    simp only [List.eraseIdx_cons_succ, List.filter_cons]
    split
    · simp only [List.length_cons]; omega
    · exact ih

@[simp] theorem runDeferred_pending (d : Deferred) (g : Game) :
    (runDeferred d g).pending = g.pending := by
  cases d <;> simp [runDeferred]

theorem timerTick_pending (g : Game) : unflips (timerTick g).pending = unflips g.pending := by
  unfold timerTick
  dsimp only
  split
  · simp [endGame, showMessage, unflips_append, unflips_hideMessage]
  · rfl

theorem lockOK_of_same (g g2 : Game) (hlock : LockOK g)
    (hp : unflips g2.pending = unflips g.pending) (hf : g2.flipped = g.flipped) :
    LockOK g2 := by
  unfold LockOK
  rw [hp, hf]
  exact hlock

theorem lockOK_onCardClick (images : List String) (idx : Nat) (g : Game)
    (hinv : Inv images g) (hlock : LockOK g) : LockOK (onCardClick images idx g) := by
  rcases hlock with hnone | ⟨a, b, _, hfl⟩
  · cases hcard : g.deck[idx]? with
    | none => simpa [onCardClick, hcard] using (Or.inl hnone : LockOK g)
    | some card =>
      by_cases hm : card.matched = true
      · rw [onCardClick_skip images g idx card hcard (Or.inl hm)]; exact Or.inl hnone
      · have hun : card.matched = false := by simpa using hm
        by_cases hmem : idx ∈ g.flipped
        · rw [onCardClick_skip images g idx card hcard (Or.inr hmem)]; exact Or.inl hnone
        · match hfl : g.flipped with
          | [] =>
            rw [onCardClick_first images g idx card hfl hcard hun]
            left
            rw [(firstSelected_frame idx g).2.2.2.2.2.2.1]
            exact hnone
          | [a] =>
            have hne : idx ≠ a := by
              intro h
              apply hmem
              rw [hfl, h]
              exact List.mem_singleton_self a
            obtain ⟨ca, hca, _⟩ :=
              hinv.flipped_unmatched a (by rw [hfl]; exact List.mem_singleton_self a)
            obtain ⟨hd, hf, _, _, _, _, hp, _⟩ := secondSelected_frame a idx g
            have ha2 : (secondSelected a idx g).deck[a]? = some ca := by rw [hd]; exact hca
            have hb2 : (secondSelected a idx g).deck[idx]? = some card := by
              rw [hd]; exact hcard
            rw [onCardClick_second images g a idx card hfl hcard hne hun]
            by_cases hsame : ca.src = card.src
            · left
              by_cases hlast : (secondSelected a idx g).matchedCount + 1 = UNIQUE_PAIRS images
              · rw [checkMatch_win images _ a idx ca card hf ha2 hb2 hsame hlast]
                simp [endGame, showMessage, unflips_append, hp, hnone,
                  unflips_markMatched_hideMessage]
              · rw [checkMatch_no_win images _ a idx ca card hf ha2 hb2 hsame hlast]
                simp [unflips_append, hp, hnone, unflips_markMatched]
            · right
              refine ⟨a, idx, ?_, ?_⟩
              · rw [checkMatch_mismatch images _ a idx ca card hf ha2 hb2 hsame]
                simp [unflips_append, hp, hnone, unflips_unflipPair]
              · rw [checkMatch_mismatch images _ a idx ca card hf ha2 hb2 hsame]
                exact hf
          | a :: b :: rest =>
            have hlen := hinv.flipped_length
            rw [hfl] at hlen
            have hrest : rest = [] := by
              cases rest with
              | nil => rfl
              | cons x xs => simp at hlen
            rw [onCardClick_locked images idx g (by rw [hfl, hrest]; rfl)]
            exact Or.inl hnone
  · rw [onCardClick_locked images idx g (by rw [hfl]; rfl)]
    exact Or.inr ⟨a, b, by assumption, hfl⟩

theorem lockOK_fire (d : Deferred) (k : Nat) (g : Game) (hk : g.pending[k]? = some d)
    (hlock : LockOK g) : LockOK (runDeferred d { g with pending := g.pending.eraseIdx k }) := by
  cases hd : d.isUnflip with
  | false =>
    apply lockOK_of_same g _ hlock
    · rw [runDeferred_pending]
      exact filter_eraseIdx_of_false _ g.pending k d hk hd
    · cases d with
      | markMatched a b => simp [runDeferred]
      | unflipPair a b => simp [Deferred.isUnflip] at hd
      | hideMessage => simp [runDeferred]
  | true =>
    left
    have hlen := filter_eraseIdx_of_true _ g.pending k d hk hd
    have hle : (unflips g.pending).length ≤ 1 := by
      rcases hlock with h | ⟨a, b, h, _⟩ <;> simp [h]
    rw [runDeferred_pending]
    apply List.eq_nil_of_length_eq_zero
    unfold unflips at hle ⊢
    simp only at hlen ⊢
    omega

theorem lockOK_step (images : List String) (e : Event) (g : Game) (hinv : Inv images g)
    (hlock : LockOK g) (hcalm : e.isReset = true → unflips g.pending = []) :
    LockOK (step images e g) := by
  cases e with
  | click idx =>
    simp only [step]
    split
    · exact lockOK_onCardClick images idx g hinv hlock
    · exact hlock
  | tick h =>
    simp only [step]
    split
    · exact lockOK_of_same g _ hlock (timerTick_pending g) (timerTick_flipped g)
    · exact hlock
  | fire k =>
    simp only [step]
    cases hk : g.pending[k]? with
    | none => exact hlock
    | some d => exact lockOK_fire d k g hk hlock
  | reset draws =>
    left
    simp only [step]
    rw [(resetGame_fields images draws g).2.2.2.2.2.2.2.2.2.2.2]
    exact hcalm rfl

theorem settled_lockOK (images : List String) (g : Game)
    (hreach : ReachableSettled images g) : LockOK g := by
  induction hreach with
  | init messageText messageHidden draws =>
    left
    rw [(resetGame_fields images draws _).2.2.2.2.2.2.2.2.2.2.2]
    rfl
  | step e hprev hcalm ih =>
    exact lockOK_step images e _ (reachable_inv images _ (reachable_of_settled images _ hprev))
      ih hcalm

/-- C15, as amended: in every state reached from the initial reset by clicks, ticks,
deferred callbacks and restarts made while no mismatch callback is pending, a pending
mismatch (800 ms) callback for cards `a` and `b` is the only pending mismatch callback,
the selection is `[a, b]`, every click is ignored, and when the callback runs the
selection it empties is that pair and no mismatch callback remains pending. A match
(200 ms) callback leaves the selection of the state it runs in as it is. -/
theorem mismatch_lock (images : List String) (g : Game)
    (hreach : ReachableSettled images g) :
    (∀ a b, Deferred.unflipPair a b ∈ g.pending →
      g.flipped = [a, b] ∧
      unflips g.pending = [Deferred.unflipPair a b] ∧
      (∀ idx, onCardClick images idx g = g) ∧
      (∀ k, g.pending[k]? = some (Deferred.unflipPair a b) →
        (step images (Event.fire k) g).flipped = [] ∧
        unflips (step images (Event.fire k) g).pending = [])) ∧
    (unflips g.pending).length ≤ 1 ∧
    (∀ (a b : Nat) (g2 : Game),
      (runDeferred (Deferred.markMatched a b) g2).flipped = g2.flipped) := by
  have hlock := settled_lockOK images g hreach
  refine ⟨?_, ?_, fun a b g2 => by simp [runDeferred]⟩
  · intro a b hmem
    have hmem2 : Deferred.unflipPair a b ∈ unflips g.pending :=
      List.mem_filter.mpr ⟨hmem, rfl⟩
    rcases hlock with hnone | ⟨a2, b2, hone, hfl⟩
    · rw [hnone] at hmem2
      cases hmem2
    · rw [hone, List.mem_singleton] at hmem2
      cases hmem2
      refine ⟨hfl, hone, fun idx => onCardClick_locked images idx g (by rw [hfl]; rfl), ?_⟩
      intro k hk
      simp only [step, hk]
      refine ⟨rfl, ?_⟩
      have hlen := filter_eraseIdx_of_true Deferred.isUnflip g.pending k _ hk rfl
      rw [runDeferred_pending]
      apply List.eq_nil_of_length_eq_zero
      have hone2 : (g.pending.filter Deferred.isUnflip).length = 1 := by
        have := congrArg List.length hone
        simpa [unflips] using this
      unfold unflips
      simp only at hlen ⊢
      omega
  · rcases hlock with h | ⟨a, b, h, _⟩ <;> simp [h]

/-- C15 as amended, on the deck `[A, B, A, B]` after the mismatch of cards 0 and 1: the
selection is `[0, 1]`, a click on card 2 is ignored, and the callback empties the
selection. -/
theorem mismatch_lock_witness :
    (run twoImages [Event.click 0, Event.click 1] freshABAB).pending
      = [Deferred.unflipPair 0 1] ∧
    (run twoImages [Event.click 0, Event.click 1] freshABAB).flipped = [0, 1] ∧
    onCardClick twoImages 2 (run twoImages [Event.click 0, Event.click 1] freshABAB)
      = run twoImages [Event.click 0, Event.click 1] freshABAB ∧
    (step twoImages (Event.fire 0)
      (run twoImages [Event.click 0, Event.click 1] freshABAB)).flipped = [] :=
  have h := (mismatch_lock twoImages (run twoImages [Event.click 0, Event.click 1] freshABAB)
    (ReachableSettled.step (Event.click 1)
      (ReachableSettled.step (Event.click 0) (ReachableSettled.init "" true interleaveDraws)
        (by decide)) (by decide))).1 0 1 (by decide)
  ⟨by decide, h.1, h.2.2.1 2, (h.2.2.2 0 (by decide)).1⟩

/-- C15, as stated, fails on the deck `[A, B, A, B]`. After the match of cards 0 and 2 the
match callback is pending while the selection is empty, and a click on card 1 is
accepted; after the second match two match callbacks are pending together. After a
mismatch of cards 0 and 1, a restart and a flip of card 2, the mismatch callback is
pending while the selection is `[2]`, and when it runs it empties the selection of the
new session. -/
theorem lock_not_held :
    Reachable twoImages (run twoImages [Event.click 0, Event.click 2] freshABAB) ∧
    (run twoImages [Event.click 0, Event.click 2] freshABAB).pending
      = [Deferred.markMatched 0 2] ∧
    (run twoImages [Event.click 0, Event.click 2] freshABAB).flipped = [] ∧
    (step twoImages (Event.click 1)
      (run twoImages [Event.click 0, Event.click 2] freshABAB)).flipped = [1] ∧
    (run twoImages [Event.click 0, Event.click 2, Event.click 1, Event.click 3]
      freshABAB).pending
      = [Deferred.markMatched 0 2, Deferred.markMatched 1 3, Deferred.hideMessage] ∧
    Reachable twoImages (run twoImages
      [Event.click 0, Event.click 1, Event.reset interleaveDraws, Event.click 2] freshABAB) ∧
    (run twoImages [Event.click 0, Event.click 1, Event.reset interleaveDraws, Event.click 2]
      freshABAB).pending = [Deferred.unflipPair 0 1] ∧
    (run twoImages [Event.click 0, Event.click 1, Event.reset interleaveDraws, Event.click 2]
      freshABAB).flipped = [2] ∧
    (run twoImages [Event.click 0, Event.click 1, Event.reset interleaveDraws, Event.click 2,
      Event.fire 0] freshABAB).flipped = [] :=
  ⟨reachable_run twoImages _ _ (Reachable.init "" true interleaveDraws),
   by decide, by decide, by decide, by decide,
   reachable_run twoImages _ _ (Reachable.init "" true interleaveDraws),
   by decide, by decide, by decide⟩

/-! ## The shuffle reaches every order exactly once -/

theorem length_swapAt {α : Type} (array : List α) (i j : Nat) :
    (swapAt array i j).length = array.length :=
  (swapAt_perm array i j).length_eq

theorem swapAt_of_length_le {α : Type} (array : List α) (i j : Nat)
    (hi : array.length ≤ i) : swapAt array i j = array := by
  unfold swapAt
  rw [List.getElem?_eq_none hi]

/-- After the exchange, position `j` holds the old entry of `i`, position `i` the old
entry of `j`, and every other position its own. -/
theorem getElem?_swapAt {α : Type} (array : List α) (i j k : Nat)
    (hi : i < array.length) (hj : j < array.length) :
    (swapAt array i j)[k]? =
      if k = j then array[i]? else if k = i then array[j]? else array[k]? := by
  unfold swapAt
  rw [List.getElem?_eq_getElem hi, List.getElem?_eq_getElem hj]
  simp only
  rw [List.getElem?_set, List.getElem?_set]
  by_cases hkj : k = j
  · subst hkj
    simp [hi, hj]
  · have hjk : ¬ j = k := fun e => hkj e.symm
    by_cases hki : k = i
    · subst hki
      simp [hkj, hjk, hi, hj]
    · have hik : ¬ i = k := fun e => hki e.symm
      simp [hkj, hjk, hki, hik]

/-- The loop entered at `i` leaves every position above `i` as it is. -/
theorem shuffleLoop_above {α : Type} (draws : Draws) :
    ∀ (i : Nat) (array : List α) (k : Nat), i < k →
      (shuffleLoop draws i array)[k]? = array[k]?
  | 0, _, _, _ => rfl
  | i + 1, array, k, hk => by
    simp only [shuffleLoop]
    rw [shuffleLoop_above draws i _ k (by omega)]
    by_cases hlen : i + 1 < array.length
    · have hj : (draws (i + 1)).val < array.length := by
        have := (draws (i + 1)).isLt
        omega
      rw [getElem?_swapAt array _ _ k hlen hj]
      have h1 : ¬ k = (draws (i + 1)).val := by
        have := (draws (i + 1)).isLt
        omega
      have h2 : ¬ k = i + 1 := by omega
      simp [h1, h2]
    · rw [swapAt_of_length_le array _ _ (by omega)]

/-- The loop entered at `i + 1` puts the entry drawn first at position `i + 1`. -/
theorem shuffleLoop_top {α : Type} (draws : Draws) (i : Nat) (array : List α)
    (hlen : i + 1 < array.length) :
    (shuffleLoop draws (i + 1) array)[i + 1]? = array[(draws (i + 1)).val]? := by
  have hj : (draws (i + 1)).val < array.length := by
    have := (draws (i + 1)).isLt
    omega
  simp only [shuffleLoop]
  rw [shuffleLoop_above draws i _ (i + 1) (by omega), getElem?_swapAt array _ _ _ hlen hj]
  by_cases h : i + 1 = (draws (i + 1)).val
  · rw [if_pos h]
    exact congrArg (fun k => array[k]?) h
  · simp [h]

/-- The loop entered at `i` reads the draws for `1 .. i` only. -/
theorem shuffleLoop_congr {α : Type} (d1 d2 : Draws) :
    ∀ (i : Nat) (array : List α), (∀ k, 1 ≤ k → k ≤ i → d1 k = d2 k) →
      shuffleLoop d1 i array = shuffleLoop d2 i array
  | 0, _, _ => rfl
  | i + 1, array, h => by
    simp only [shuffleLoop]
    rw [h (i + 1) (by omega) (by omega)]
    exact shuffleLoop_congr d1 d2 i _ (fun k h1 h2 => h k h1 (by omega))

/-- Different draws give different orders of an array without repetition. -/
theorem shuffleLoop_injective {α : Type} (d1 d2 : Draws) :
    ∀ (i : Nat) (array : List α), array.Nodup → i < array.length →
      shuffleLoop d1 i array = shuffleLoop d2 i array →
      ∀ k, 1 ≤ k → k ≤ i → d1 k = d2 k
  | 0, _, _, _, _, k, h1, h2 => by omega
  | i + 1, array, hnd, hlen, heq, k, h1, h2 => by
    have htop : array[(d1 (i + 1)).val]? = array[(d2 (i + 1)).val]? := by
      rw [← shuffleLoop_top d1 i array hlen, ← shuffleLoop_top d2 i array hlen, heq]
    have hj1 : (d1 (i + 1)).val < array.length := by
      have := (d1 (i + 1)).isLt
      omega
    have hdraw : d1 (i + 1) = d2 (i + 1) := Fin.ext (List.getElem?_inj hj1 hnd htop)
    by_cases hk : k = i + 1
    · subst hk; exact hdraw
    · simp only [shuffleLoop] at heq
      rw [← hdraw] at heq
      exact shuffleLoop_injective d1 d2 i _
        ((swapAt_perm array _ _).nodup_iff.mpr hnd)
        (by rw [length_swapAt]; omega) heq k h1 (by omega)

/-- If `l` rearranges `array` and agrees with it above position `p`, the entry of `l` at
`p` sits in `array` at a position not above `p`. -/
theorem find_below {α : Type} (array l : List α) (hnd : array.Nodup) (hperm : l.Perm array)
    (p : Nat) (hp : p < array.length) (habove : ∀ k, p < k → l[k]? = array[k]?) :
    ∃ m, m ≤ p ∧ array[m]? = l[p]? := by
  have hlen : l.length = array.length := hperm.length_eq
  have hp2 : p < l.length := by omega
  have hmem : l[p] ∈ array := hperm.mem_iff.mp (List.getElem_mem hp2)
  obtain ⟨m, hm⟩ := List.mem_iff_getElem?.mp hmem
  refine ⟨m, ?_, by rw [hm, List.getElem?_eq_getElem hp2]⟩
  by_contra hgt
  have h1 : l[m]? = some l[p] := by rw [habove m (by omega)]; exact hm
  have h2 : l[p]? = l[m]? := by rw [h1, List.getElem?_eq_getElem hp2]
  have := List.getElem?_inj hp2 (hperm.nodup_iff.mpr hnd) h2
  omega

/-- Every order of an array without repetition that agrees with it above position `i`
is produced by the loop entered at `i`, for suitable draws. -/
theorem shuffleLoop_surjective {α : Type} :
    ∀ (i : Nat) (array l : List α), array.Nodup → i < array.length → l.Perm array →
      (∀ k, i < k → l[k]? = array[k]?) → ∃ d : Draws, shuffleLoop d i array = l
  | 0, array, l, hnd, hlen, hperm, habove => by
    refine ⟨keepDraws, ?_⟩
    simp only [shuffleLoop]
    apply List.ext_getElem?
    intro k
    by_cases hk : 0 < k
    · exact (habove k hk).symm
    · obtain ⟨m, hm, hget⟩ := find_below array l hnd hperm 0 hlen habove
      have hk0 : k = 0 := by omega
      have hm0 : m = 0 := by omega
      rw [hk0, ← hget, hm0]
  | i + 1, array, l, hnd, hlen, hperm, habove => by
    obtain ⟨m, hm, hget⟩ := find_below array l hnd hperm (i + 1) hlen habove
    have hmlen : m < array.length := by omega
    have hperm2 : l.Perm (swapAt array (i + 1) m) := hperm.trans (swapAt_perm array _ _).symm
    have habove2 : ∀ k, i < k → l[k]? = (swapAt array (i + 1) m)[k]? := by
      intro k hk
      rw [getElem?_swapAt array _ _ k hlen hmlen]
      by_cases hkm : k = m
      · have hk1 : k = i + 1 := by omega
        rw [if_pos hkm, hk1, ← hget, ← hkm, hk1]
      · rw [if_neg hkm]
        by_cases hk1 : k = i + 1
        · rw [if_pos hk1, hk1, hget]
        · rw [if_neg hk1]
          exact habove k (by omega)
    obtain ⟨d, hd⟩ := shuffleLoop_surjective i (swapAt array (i + 1) m) l
      ((swapAt_perm array _ _).nodup_iff.mpr hnd) (by rw [length_swapAt]; omega) hperm2 habove2
    refine ⟨Function.update d (i + 1) ⟨m, by omega⟩, ?_⟩
    simp only [shuffleLoop, Function.update_same]
    rw [← hd]
    apply shuffleLoop_congr
    intro k _ hk
    exact Function.update_noteq (by omega) _ _

theorem shuffle_injective {α : Type} (array : List α) (hnd : array.Nodup) (d1 d2 : Draws)
    (heq : shuffle d1 array = shuffle d2 array) :
    ∀ i, 1 ≤ i → i < array.length → d1 i = d2 i := by
  intro i h1 h2
  exact shuffleLoop_injective d1 d2 (array.length - 1) array hnd (by omega) heq i h1 (by omega)

theorem shuffle_surjective {α : Type} (array : List α) (hnd : array.Nodup) (l : List α)
    (hperm : l.Perm array) : ∃ d : Draws, shuffle d array = l := by
  by_cases hlen : array.length = 0
  · have ha : array = [] := List.eq_nil_of_length_eq_zero hlen
    subst ha
    exact ⟨keepDraws, by rw [List.perm_nil.mp hperm]; rfl⟩
  · apply shuffleLoop_surjective (array.length - 1) array l hnd (by omega) hperm
    intro k hk
    have hl := hperm.length_eq
    rw [List.getElem?_eq_none (by omega), List.getElem?_eq_none (by omega)]

theorem shuffle_congr {α : Type} (array : List α) (d1 d2 : Draws)
    (h : ∀ i, 1 ≤ i → i < array.length → d1 i = d2 i) :
    shuffle d1 array = shuffle d2 array :=
  shuffleLoop_congr d1 d2 _ array (fun k h1 h2 => h k h1 (by omega))

theorem toDraws_val {n : Nat} (s : DrawSeq n) (k : Fin (n - 1)) :
    (s.toDraws (k.val + 1)).val = (s k).val := by
  have hk := k.isLt
  have h : 1 ≤ k.val + 1 ∧ k.val + 1 < n := by omega
  simp only [DrawSeq.toDraws, dif_pos h]
  exact congrArg (fun x : Fin (n - 1) => (s x).val) (Fin.ext (by simp))

theorem toDraws_drawSeqOf (n : Nat) (d : Draws) (i : Nat) (h1 : 1 ≤ i) (h2 : i < n) :
    (drawSeqOf n d).toDraws i = d i := by
  apply Fin.ext
  have h : 1 ≤ i ∧ i < n := ⟨h1, h2⟩
  simp only [DrawSeq.toDraws, dif_pos h, drawSeqOf]
  exact congrArg (fun k => (d k).val) (by omega : i - 1 + 1 = i)

theorem prod_range_add_two : ∀ m : Nat, (∏ k ∈ Finset.range m, (k + 2)) = (m + 1).factorial
  | 0 => rfl
  | m + 1 => by
    rw [Finset.prod_range_succ, prod_range_add_two m, Nat.factorial_succ (m + 1)]
    ring

theorem card_drawSeq (n : Nat) : Fintype.card (DrawSeq n) = n.factorial := by
  rw [Fintype.card_pi]
  simp only [Fintype.card_fin]
  rw [Fin.prod_univ_eq_prod_range (fun k => k + 2) (n - 1), prod_range_add_two]
  cases n with
  | zero => rfl
  | succ m => simp

theorem shuffle_drawSeq_injective {α : Type} (array : List α) (hnd : array.Nodup)
    (s1 s2 : DrawSeq array.length)
    (heq : shuffle s1.toDraws array = shuffle s2.toDraws array) : s1 = s2 := by
  funext k
  apply Fin.ext
  have hk := k.isLt
  rw [← toDraws_val s1 k, ← toDraws_val s2 k,
    shuffle_injective array hnd s1.toDraws s2.toDraws heq (k.val + 1) (by omega) (by omega)]

theorem shuffle_drawSeqOf {α : Type} (array : List α) (d : Draws) :
    shuffle (drawSeqOf array.length d).toDraws array = shuffle d array :=
  shuffle_congr array _ _ (fun i h1 h2 => toDraws_drawSeqOf array.length d i h1 h2)

/-- C14: for an array of `n` pairwise distinct entries, the map that sends the draws of
one run of `shuffle` (a value in `0 .. i` for each loop index `i = n - 1, ..., 1`) to the
resulting order is a bijection onto the rearrangements of the array; every run of
`shuffle` is the run on its draws; there are `n!` sequences of draws, each order comes
from exactly one of them, and so, when all sequences of draws are equally likely, each
order has probability `1 / n!`. -/
theorem shuffle_uniform {α : Type} [DecidableEq α] (array : List α)
    (hdistinct : array.Nodup) :
    Function.Bijective (fun s : DrawSeq array.length =>
      (⟨shuffle s.toDraws array, shuffle_perm s.toDraws array⟩ :
        {l : List α // l.Perm array})) ∧
    (∀ d : Draws, shuffle d array = shuffle (drawSeqOf array.length d).toDraws array) ∧
    Fintype.card (DrawSeq array.length) = array.length.factorial ∧
    (∀ l : List α, l.Perm array →
      (Finset.univ.filter
        (fun s : DrawSeq array.length => shuffle s.toDraws array = l)).card = 1) ∧
    (∀ l : List α, l.Perm array →
      ((Finset.univ.filter
        (fun s : DrawSeq array.length => shuffle s.toDraws array = l)).card : ℚ)
        / (Fintype.card (DrawSeq array.length) : ℚ) = 1 / (array.length.factorial : ℚ)) := by
  have hone : ∀ l : List α, l.Perm array →
      (Finset.univ.filter
        (fun s : DrawSeq array.length => shuffle s.toDraws array = l)).card = 1 := by
    intro l hl
    obtain ⟨d, hd⟩ := shuffle_surjective array hdistinct l hl
    rw [Finset.card_eq_one]
    refine ⟨drawSeqOf array.length d, ?_⟩
    ext s
    simp only [Finset.mem_filter, Finset.mem_univ, true_and, Finset.mem_singleton]
    constructor
    · intro hs
      apply shuffle_drawSeq_injective array hdistinct
      rw [hs, shuffle_drawSeqOf, hd]
    · intro hs
      rw [hs, shuffle_drawSeqOf, hd]
  refine ⟨⟨?_, ?_⟩, fun d => (shuffle_drawSeqOf array d).symm, card_drawSeq _, hone, ?_⟩
  · intro s1 s2 heq
    exact shuffle_drawSeq_injective array hdistinct s1 s2 (congrArg Subtype.val heq)
  · rintro ⟨l, hl⟩
    obtain ⟨d, hd⟩ := shuffle_surjective array hdistinct l hl
    refine ⟨drawSeqOf array.length d, ?_⟩
    apply Subtype.ext
    simp only
    rw [shuffle_drawSeqOf, hd]
  · intro l hl
    rw [hone l hl, card_drawSeq]
    simp

/-- C14 on the unshuffled four-card deck of two images: 24 sequences of draws, and each
order of the deck comes from exactly one of them. -/
theorem shuffle_uniform_witness :
    (cardsFrom 0 ["A", "A", "B", "B"]).Nodup ∧
    Fintype.card (DrawSeq (cardsFrom 0 ["A", "A", "B", "B"]).length) = 24 ∧
    (∀ l : List Card, l.Perm (cardsFrom 0 ["A", "A", "B", "B"]) →
      (Finset.univ.filter
        (fun s : DrawSeq (cardsFrom 0 ["A", "A", "B", "B"]).length =>
          shuffle s.toDraws (cardsFrom 0 ["A", "A", "B", "B"]) = l)).card = 1) :=
  ⟨by decide,
   (shuffle_uniform (cardsFrom 0 ["A", "A", "B", "B"]) (by decide)).2.2.1.trans (by decide),
   (shuffle_uniform (cardsFrom 0 ["A", "A", "B", "B"]) (by decide)).2.2.2.1⟩

/-! ## A mismatch callback left over from before a restart -/

/-- C4, at the failing input, on the deck `[A, B, A, B]`: cards 0 and 1 mismatch and the
restart button is clicked before their callback has run. In the new session card 2 (an
`A`) is selected and the click on card 3 (a `B`) is a mismatch: the score stays 0, the
selection is `[2, 3]` and its callback is pending behind the old one. The old callback
then runs and empties the selection, so that, with the callback of cards 2 and 3 still
pending, a click on card 0 is accepted. -/
theorem selection_lost_to_stale_callback :
    Reachable twoImages
      (run twoImages [Event.click 0, Event.click 1, Event.reset interleaveDraws, Event.click 2]
        freshABAB) ∧
    (run twoImages [Event.click 0, Event.click 1, Event.reset interleaveDraws, Event.click 2]
      freshABAB).flipped = [2] ∧
    (run twoImages [Event.click 0, Event.click 1, Event.reset interleaveDraws, Event.click 2]
      freshABAB).deck[2]? = some { id := "1-A", src := "A", matched := false } ∧
    (run twoImages [Event.click 0, Event.click 1, Event.reset interleaveDraws, Event.click 2]
      freshABAB).deck[3]? = some { id := "3-B", src := "B", matched := false } ∧
    (run twoImages [Event.click 0, Event.click 1, Event.reset interleaveDraws, Event.click 2,
      Event.click 3] freshABAB).score = 0 ∧
    (run twoImages [Event.click 0, Event.click 1, Event.reset interleaveDraws, Event.click 2,
      Event.click 3] freshABAB).flipped = [2, 3] ∧
    (run twoImages [Event.click 0, Event.click 1, Event.reset interleaveDraws, Event.click 2,
      Event.click 3] freshABAB).pending
      = [Deferred.unflipPair 0 1, Deferred.unflipPair 2 3] ∧
    (run twoImages [Event.click 0, Event.click 1, Event.reset interleaveDraws, Event.click 2,
      Event.click 3, Event.fire 0] freshABAB).flipped = [] ∧
    (run twoImages [Event.click 0, Event.click 1, Event.reset interleaveDraws, Event.click 2,
      Event.click 3, Event.fire 0] freshABAB).pending = [Deferred.unflipPair 2 3] ∧
    (run twoImages [Event.click 0, Event.click 1, Event.reset interleaveDraws, Event.click 2,
      Event.click 3, Event.fire 0, Event.click 0] freshABAB).flipped = [0] ∧
    (run twoImages [Event.click 0, Event.click 1, Event.reset interleaveDraws, Event.click 2,
      Event.click 3, Event.fire 0, Event.click 0] freshABAB).pending
      = [Deferred.unflipPair 2 3] :=
  ⟨reachable_run twoImages _ _ (Reachable.init "" true interleaveDraws),
   by decide, by decide, by decide, by decide, by decide, by decide, by decide, by decide,
   by decide, by decide⟩

end MemoryGame
